import Mathlib

/-!
Shallow embedding of the cognition-to-value-protocol execution gate
(TypeScript sources under src/), together with theorems settling the
frozen claims about its specification.

Modelling conventions, used throughout:
* decimal strings that the source immediately feeds to parseFloat
  (amount.value, maxFee, fee estimates, balances) are modelled by their
  rational values; JS double arithmetic on the magnitudes involved is
  abstracted to exact arithmetic over the rationals;
* Date.now() / Math.random() / crypto.randomUUID() are ambient effects and
  become explicit parameters (now, rand, uuid) of the embedded functions;
* the 32-bit signed wrap-around of JS bitwise operators is modelled
  explicitly via toInt32;
* node:crypto hash primitives (sha3-256, sha256) and JSON.stringify of an
  attestation record are external libraries from the repository's point of
  view and are passed in as function parameters.
-/

namespace CVP

/-- Action kind of a payment intent envelope (utils/types.ts, field action). -/
inductive PIEAction
  | send
  | swap
  | batch
deriving DecidableEq

/-- JSON string for an action kind. -/
def PIEAction.str : PIEAction → String
  | .send => "send"
  | .swap => "swap"
  | .batch => "batch"

/-- Amount specification (utils/types.ts). The decimal string value is
modelled by its rational value. -/
structure Amount where
  value : ℚ
  currency : String
deriving DecidableEq

/-- Execution constraints (utils/types.ts). expiry is a unix timestamp in
seconds; maxFee is a decimal string modelled by its rational value. -/
structure PIEConstraints where
  maxSlippage : ℚ
  maxFee : ℚ
  expiry : Int
deriving DecidableEq

/-- Risk boundaries (utils/types.ts). -/
structure RiskBounds where
  maxVolatility : ℚ
  complianceFlags : List String
deriving DecidableEq

/-- Payment Intent Envelope, the canonical bounded-intent schema
(utils/types.ts, identical field-for-field to pie.schema.ts's PIESchema). -/
structure PaymentIntentEnvelope where
  intentId : String
  action : PIEAction
  amount : Amount
  destination : String
  constraints : PIEConstraints
  riskBounds : RiskBounds
  allowedRoutes : List String
  requiredProofs : List String
  explanation : String
deriving DecidableEq

/-! ## utils/crypto.ts : placeholder hashing, signing and attestation -/

/-- ToInt32 coercion of JS bitwise operators: wrap an integer into
[-2^31, 2^31). -/
def toInt32 (z : Int) : Int := (z + 2 ^ 31) % 2 ^ 32 - 2 ^ 31

/-- One step of the hash loop in utils/crypto.ts hashEnvelope:
hash = ((hash << 5) - hash) + char; hash = hash & hash. -/
def hashStep (h : Int) (c : Nat) : Int := toInt32 (toInt32 (h * 32) - h + c)

/-- The character-code hash loop of hashEnvelope, over the code units of the
serialized string (all strings involved are ASCII, so UTF-16 code units
coincide with the characters' code points). -/
def hashString (s : String) : Int := s.data.foldl (fun h c => hashStep h c.toNat) 0

/-- Lower-case hex digit. -/
def hexChar (n : Nat) : Char := if n < 10 then Char.ofNat (48 + n) else Char.ofNat (87 + n)

/-- Hex digits of a natural number, most significant first (accumulator form). -/
def natToHexCore (n : Nat) (acc : List Char) : List Char :=
  if h : n = 0 then acc else natToHexCore (n / 16) (hexChar (n % 16) :: acc)
termination_by n
decreasing_by exact Nat.div_lt_self (Nat.pos_of_ne_zero h) (by norm_num)

/-- JS Number.prototype.toString(16) for a non-negative integer. -/
def natToHex (n : Nat) : String := if n = 0 then "0" else String.mk (natToHexCore n [])

/-- JSON string literal. The strings appearing in envelopes contain no
characters that JSON.stringify escapes, so quoting suffices. -/
def jsStringLit (s : String) : String := "\"" ++ s ++ "\""

/-- Decimal rendering of a rational whose denominator divides a power of
ten, matching how JSON.stringify prints the corresponding JS number. The
numbers stored in envelopes are such terminating decimals; other rationals
fall back to the raw representation (never reached on source data). -/
def decimalOfRat (q : ℚ) : String :=
  if q.den = 1 then toString q.num
  else
    match (List.range 40).find? (fun k => (q * (10 : ℚ) ^ k).den = 1) with
    | none => toString q
    | some k =>
      let n : Int := (q * (10 : ℚ) ^ k).num
      let sign := if n < 0 then "-" else ""
      let a := n.natAbs
      let ip := a / 10 ^ k
      let fp := a % 10 ^ k
      let fpDigits := toString fp
      let pad := String.mk (List.replicate (k - fpDigits.length) '0')
      sign ++ toString ip ++ "." ++ pad ++ fpDigits

/-- JSON array of strings. -/
def jsonStringArray (xs : List String) : String :=
  "[" ++ String.intercalate "," (xs.map jsStringLit) ++ "]"

/-- JSON.stringify of a payment intent envelope, with keys in the
declaration order of the PaymentIntentEnvelope interface. -/
def serializeEnvelope (e : PaymentIntentEnvelope) : String :=
  "\x7b\"intentId\":" ++ jsStringLit e.intentId ++
  ",\"action\":" ++ jsStringLit e.action.str ++
  ",\"amount\":\x7b\"value\":" ++ jsStringLit (decimalOfRat e.amount.value) ++
  ",\"currency\":" ++ jsStringLit e.amount.currency ++
  "\x7d,\"destination\":" ++ jsStringLit e.destination ++
  ",\"constraints\":\x7b\"maxSlippage\":" ++ decimalOfRat e.constraints.maxSlippage ++
  ",\"maxFee\":" ++ jsStringLit (decimalOfRat e.constraints.maxFee) ++
  ",\"expiry\":" ++ toString e.constraints.expiry ++
  "\x7d,\"riskBounds\":\x7b\"maxVolatility\":" ++ decimalOfRat e.riskBounds.maxVolatility ++
  ",\"complianceFlags\":" ++ jsonStringArray e.riskBounds.complianceFlags ++
  "\x7d,\"allowedRoutes\":" ++ jsonStringArray e.allowedRoutes ++
  ",\"requiredProofs\":" ++ jsonStringArray e.requiredProofs ++
  ",\"explanation\":" ++ jsStringLit e.explanation ++ "\x7d"

/-- utils/crypto.ts hashEnvelope: JSON-serialize, run the placeholder
char-code hash, and render as a prefixed hex string. -/
def hashEnvelope (envelope : PaymentIntentEnvelope) : String :=
  "hash-" ++ natToHex (hashString (serializeEnvelope envelope)).natAbs

/-- utils/crypto.ts signAttestation (placeholder signer). -/
def signAttestation (envelopeHash : String) (_privateKey : String) (now : Int) : String :=
  "sig-" ++ envelopeHash ++ "-" ++ toString now

/-- CAR attestation record (utils/types.ts AttestationRecord). -/
structure AttestationRecord where
  attestationId : String
  envelopeId : String
  timestamp : Int
  signature : String
  publicKey : String
  validationHash : String
deriving DecidableEq

/-- utils/crypto.ts verifySignature: placeholder that always returns false
until a real verifier is implemented. -/
def verifySignature (_attestation : AttestationRecord) (_publicKey : String) : Bool :=
  false

/-- utils/crypto.ts createAttestation. -/
def createAttestation (envelope : PaymentIntentEnvelope) (privateKey publicKey : String)
    (now : Int) : AttestationRecord :=
  let validationHash := hashEnvelope envelope
  { attestationId := "attest-" ++ toString now
    envelopeId := envelope.intentId
    timestamp := now
    signature := signAttestation validationHash privateKey now
    publicKey := publicKey
    validationHash := validationHash }

/-- utils/crypto.ts verifyAttestation: recompute the hash, compare, then
delegate to verifySignature. -/
def verifyAttestation (envelope : PaymentIntentEnvelope)
    (attestation : AttestationRecord) : Bool :=
  if hashEnvelope envelope ≠ attestation.validationHash then false
  else verifySignature attestation attestation.publicKey

/-! ## security/pqc/attestation.ts : hybrid attestation records -/

/-- Signature bundle inside a CarAttestation (classicalSig / pqcSig). -/
structure SigBundle where
  alg : String
  publicKeyHex : String
  signatureHex : String
deriving DecidableEq

/-- security/pqc/attestation.ts CarAttestation. The TS string-union fields
(suite, cryptoPolicy, alg) are runtime strings and are modelled as such;
keyEpoch and createdAt are numbers, so the structural validator's typeof
checks on them hold identically in this model. -/
structure CarAttestation where
  attestationId : String
  suite : String
  cryptoPolicy : String
  keyEpoch : Int
  createdAt : Int
  envelopeHashHex : String
  classicalSig : Option SigBundle
  pqcSig : Option SigBundle
  meta : List (String × String)
deriving DecidableEq

/-- Whether the token char list starts the given char list. -/
def tokenLeads : List Char → List Char → Bool
  | [], _ => true
  | _ :: _, [] => false
  | c :: cs, d :: ds => c = d && tokenLeads cs ds

/-- Whether the token char list occurs contiguously in the given char
list. -/
def hasTokenAux (t : List Char) : List Char → Bool
  | [] => tokenLeads t []
  | c :: cs => tokenLeads t (c :: cs) || hasTokenAux t cs

/-- JS String.prototype.includes for the policy-name checks of the
structural validator. -/
def stringHasToken (s token : String) : Bool := hasTokenAux token.data s.data

/-- security/pqc/attestation.ts isValidAttestationStructure: field presence
checks, then the hybrid / PQC-only signature-presence rules. The typeof
number checks on keyEpoch and createdAt are identically true here. -/
def isValidAttestationStructure (attestation : CarAttestation) : Bool :=
  if attestation.attestationId = "" then false
  else if attestation.suite = "" then false
  else if attestation.cryptoPolicy = "" then false
  else if attestation.envelopeHashHex = "" then false
  else if stringHasToken attestation.cryptoPolicy "HYBRID"
      && (attestation.classicalSig.isNone || attestation.pqcSig.isNone) then false
  else if stringHasToken attestation.cryptoPolicy "PQC_ONLY"
      && attestation.pqcSig.isNone then false
  else true

/-- security/pqc/attestation.ts isAttestationExpired. -/
def isAttestationExpired (attestation : CarAttestation) (maxAgeMs now : Int) : Bool :=
  decide (now - attestation.createdAt > maxAgeMs)

/-! ## car/attest/ : suite registry and the two hybrid suites -/

/-- car/attest/types.ts AttestInput. Canonical bytes are the byte values of
the PIE canonical serialization. -/
structure AttestInput where
  envelope : PaymentIntentEnvelope
  envelopeCanonicalBytes : List Nat
  keyEpoch : Int
deriving DecidableEq

/-- car/attest/types.ts AttestOutput. -/
structure AttestOutput where
  attestation : CarAttestation
  attestationHashHex : String
deriving DecidableEq

/-- External node:crypto primitives used by the suites: sha3-256 over
bytes, and the sha256-hex commitment over JSON.stringify of the attestation
record. These live outside the repository and are parameters of the model. -/
structure CryptoExternals where
  sha3of : List Nat → List Nat
  sha256HexOfJson : CarAttestation → String

/-- Buffer.toString hex: two lower-case hex digits per byte. -/
def bytesToHex (bs : List Nat) : String :=
  String.mk (bs.flatMap fun b => [hexChar (b / 16 % 16), hexChar (b % 16)])

/-- Placeholder classical secp256k1 signer of
car/attest/suites/hybrid-ecdsa-dilithium.ts. -/
def signEcdsaSecp256k1 : String × String :=
  ("SECP256K1_PUBLIC_KEY_HEX_PLACEHOLDER", "SECP256K1_SIGNATURE_HEX_PLACEHOLDER")

/-- Placeholder classical ed25519 signer of
car/attest/suites/hybrid-ed25519-dilithium.ts. -/
def signEd25519 : String × String :=
  ("ED25519_PUBLIC_KEY_HEX_PLACEHOLDER", "ED25519_SIGNATURE_HEX_PLACEHOLDER")

/-- Placeholder Dilithium signer shared by both hybrid suite files. -/
def signDilithium : String × String :=
  ("DILITHIUM_PUBLIC_KEY_HEX_PLACEHOLDER", "DILITHIUM_SIGNATURE_HEX_PLACEHOLDER")

/-- car/attest/index.ts CarAttestor. The attest procedure takes the
node:crypto externals plus the ambient randomUUID and Date.now values. -/
structure CarAttestor where
  id : String
  supports : List String
  attest : CryptoExternals → String → Int → AttestInput → AttestOutput

/-- attest of hybrid-ecdsa-dilithium.ts: sha3-256 the canonical bytes, run
both placeholder signers, assemble the attestation record, and commit. -/
def hybridEcdsaDilithiumAttest (ext : CryptoExternals) (uuid : String) (now : Int)
    (input : AttestInput) : AttestOutput :=
  let envelopeHashHex := bytesToHex (ext.sha3of input.envelopeCanonicalBytes)
  let attestation : CarAttestation :=
    { attestationId := uuid
      suite := "CAR_ATTEST_V1_HYBRID"
      cryptoPolicy := "HYBRID_ECDSA_SECP256K1_PLUS_DILITHIUM"
      keyEpoch := input.keyEpoch
      createdAt := now
      envelopeHashHex := envelopeHashHex
      classicalSig := some ⟨"secp256k1", signEcdsaSecp256k1.1, signEcdsaSecp256k1.2⟩
      pqcSig := some ⟨"dilithium2", signDilithium.1, signDilithium.2⟩
      meta := [("note", "Hybrid attestation: secp256k1 + dilithium over SHA3-256(envelope)")] }
  { attestation := attestation, attestationHashHex := ext.sha256HexOfJson attestation }

/-- attest of hybrid-ed25519-dilithium.ts. -/
def hybridEd25519DilithiumAttest (ext : CryptoExternals) (uuid : String) (now : Int)
    (input : AttestInput) : AttestOutput :=
  let envelopeHashHex := bytesToHex (ext.sha3of input.envelopeCanonicalBytes)
  let attestation : CarAttestation :=
    { attestationId := uuid
      suite := "CAR_ATTEST_V1_HYBRID"
      cryptoPolicy := "HYBRID_ED25519_PLUS_DILITHIUM"
      keyEpoch := input.keyEpoch
      createdAt := now
      envelopeHashHex := envelopeHashHex
      classicalSig := some ⟨"ed25519", signEd25519.1, signEd25519.2⟩
      pqcSig := some ⟨"dilithium2", signDilithium.1, signDilithium.2⟩
      meta := [("note", "Hybrid attestation: ed25519 + dilithium over SHA3-256(envelope)")] }
  { attestation := attestation, attestationHashHex := ext.sha256HexOfJson attestation }

/-- hybridEcdsaDilithiumSuite constant of hybrid-ecdsa-dilithium.ts. -/
def hybridEcdsaDilithiumSuite : CarAttestor :=
  { id := "CAR_ATTEST_V1_HYBRID_ECDSA_DILITHIUM"
    supports := ["HYBRID_ECDSA_SECP256K1_PLUS_DILITHIUM"]
    attest := hybridEcdsaDilithiumAttest }

/-- hybridEd25519DilithiumSuite constant of hybrid-ed25519-dilithium.ts. -/
def hybridEd25519DilithiumSuite : CarAttestor :=
  { id := "CAR_ATTEST_V1_HYBRID_ED25519_DILITHIUM"
    supports := ["HYBRID_ED25519_PLUS_DILITHIUM"]
    attest := hybridEd25519DilithiumAttest }

/-- car/attest/index.ts createAttestor: the switch over the declared crypto
policy. Thrown errors become Except.error carrying the thrown message; TS
CryptoPolicyId is a string union, so runtime policy ids are strings and the
default branch is reachable for ids outside the enumeration. -/
def createAttestor (cryptoPolicy : String) : Except String CarAttestor :=
  if cryptoPolicy = "HYBRID_ED25519_PLUS_DILITHIUM" then
    .ok hybridEd25519DilithiumSuite
  else if cryptoPolicy = "HYBRID_ECDSA_SECP256K1_PLUS_DILITHIUM" then
    .ok hybridEcdsaDilithiumSuite
  else if cryptoPolicy = "CLASSICAL_ONLY" then
    .error "CLASSICAL_ONLY attestor not yet implemented"
  else if cryptoPolicy = "PQC_ONLY_DILITHIUM" then
    .error "PQC_ONLY_DILITHIUM attestor not yet implemented"
  else
    .error ("Unsupported cryptoPolicy for CAR attestation: " ++ cryptoPolicy)

/-- car/attest/index.ts getSupportedPolicies. -/
def getSupportedPolicies : List String :=
  ["HYBRID_ED25519_PLUS_DILITHIUM", "HYBRID_ECDSA_SECP256K1_PLUS_DILITHIUM"]

/-- car/attest/index.ts isPolicySupported. -/
def isPolicySupported (policy : String) : Bool :=
  getSupportedPolicies.contains policy

/-! ## car/compute.ts : deterministic route computation -/

/-- Route type union of car/compute.ts. -/
inductive RouteType
  | direct
  | xrplDex
  | ilp
  | multiHop
deriving DecidableEq

/-- The string form of a route type, as used by the allowed-routes filter. -/
def RouteType.str : RouteType → String
  | .direct => "direct"
  | .xrplDex => "xrpl-dex"
  | .ilp => "ilp"
  | .multiHop => "multi-hop"

/-- Candidate route (car/compute.ts Route). Fees are decimal strings in the
source, modelled by their rational values; estimatedTime is in seconds. -/
structure Route where
  routeId : String
  type : RouteType
  path : List String
  estimatedFee : ℚ
  estimatedTime : ℚ
  confidence : ℚ
deriving DecidableEq

/-- Ledger state snapshot (car/compute.ts LedgerState); the optional
orderBooks field is never read by the embedded functions. -/
structure LedgerState where
  networkFee : ℚ
  lastLedgerIndex : Int
  reserves : List (String × ℚ)
deriving DecidableEq

/-- car/compute.ts multiplyFee: parseFloat, multiply, toFixed(6); the
6-decimal rounding of toFixed is modelled exactly on the rationals. -/
def multiplyFee (fee : ℚ) (factor : ℚ) : ℚ :=
  (round (fee * factor * 1000000) : ℤ) / 1000000

/-- car/compute.ts getCandidateRoutes with Date.now() as the explicit
now parameter: direct XRP route, DEX route for swaps or non-XRP
currencies, and an unconditional ILP route. -/
def getCandidateRoutes (envelope : PaymentIntentEnvelope) (ledgerState : LedgerState)
    (now : Int) : List Route :=
  (if envelope.amount.currency = "XRP" then
    [{ routeId := "route-direct-" ++ toString now
       type := .direct
       path := [envelope.destination]
       estimatedFee := ledgerState.networkFee
       estimatedTime := 4
       confidence := 99 / 100 }]
   else []) ++
  (if envelope.action = .swap ∨ envelope.amount.currency ≠ "XRP" then
    [{ routeId := "route-dex-" ++ toString now
       type := .xrplDex
       path := ["XRP", envelope.amount.currency, envelope.destination]
       estimatedFee := multiplyFee ledgerState.networkFee 2
       estimatedTime := 8
       confidence := 9 / 10 }]
   else []) ++
  [{ routeId := "route-ilp-" ++ toString now
     type := .ilp
     path := ["ilp-connector", envelope.destination]
     estimatedFee := multiplyFee ledgerState.networkFee 3
     estimatedTime := 15
     confidence := 85 / 100 }]

/-- car/compute.ts filterByAllowedRoutes: an empty allow-list means no
restriction, otherwise keep routes whose type string is allowed or when the
wildcard is allowed. -/
def filterByAllowedRoutes (routes : List Route) (allowed : List String) : List Route :=
  if allowed = [] then routes
  else routes.filter fun route => allowed.contains route.type.str || allowed.contains "*"

/-- The sort order of selectOptimalRoute, as a boolean relation suitable
for a stable sort: routeLE a b holds exactly when the source's comparator
returns a non-positive number on (a, b), i.e. higher confidence first, then
lower fee, then lower time. -/
def routeLE (a b : Route) : Bool :=
  if a.confidence ≠ b.confidence then decide (b.confidence < a.confidence)
  else if a.estimatedFee ≠ b.estimatedFee then decide (a.estimatedFee < b.estimatedFee)
  else decide (a.estimatedTime ≤ b.estimatedTime)

/-- car/compute.ts selectOptimalRoute. JS Array.prototype.sort is a stable
sort, modelled by the stable List.mergeSort under routeLE; the sorted list
is empty exactly when the input is (so matching on it realises the
routes.length === 0 check). When no sorted candidate meets the max-fee
constraint the source logs a warning and falls back to sorted[0]. -/
def selectOptimalRoute (routes : List Route) (envelope : PaymentIntentEnvelope) :
    Except String Route :=
  match routes.mergeSort routeLE with
  | [] => .error "No valid routes available"
  | s0 :: rest =>
    match (s0 :: rest).filter (fun r => decide (r.estimatedFee ≤ envelope.constraints.maxFee)) with
    | [] => .ok s0
    | v0 :: _ => .ok v0

/-- Result of a compute call (car/compute.ts ComputeResult). computeTimeMs
is the difference of two Date.now() reads, which coincide under the
single-clock-reading model. -/
structure ComputeResult where
  computeId : String
  timestamp : Int
  envelope : PaymentIntentEnvelope
  selectedRoute : Route
  alternativeRoutes : List Route
  computeTimeMs : Int
deriving DecidableEq

/-- car/compute.ts compute: candidates, allow-list filter, deterministic
selection; the thrown no-route error surfaces as Except.error. -/
def compute (envelope : PaymentIntentEnvelope) (ledgerState : LedgerState) (now : Int) :
    Except String ComputeResult :=
  let candidates := getCandidateRoutes envelope ledgerState now
  let allowedCandidates := filterByAllowedRoutes candidates envelope.allowedRoutes
  (selectOptimalRoute allowedCandidates envelope).map fun selectedRoute =>
    { computeId := "compute-" ++ toString now
      timestamp := now
      envelope := envelope
      selectedRoute := selectedRoute
      alternativeRoutes := allowedCandidates.filter fun r => r.routeId ≠ selectedRoute.routeId
      computeTimeMs := 0 }

/-! ## car/validate.ts : the rule validator -/

/-- car/validate.ts CARValidationConfig; decimal strings modelled by their
rational values. -/
structure CARValidationConfig where
  maxTransactionSize : ℚ
  minBalance : ℚ
  requireDestinationTag : Bool
  blockedDestinations : List String
  maxPendingTransactions : Int
deriving DecidableEq

/-- DEFAULT_CONFIG of car/validate.ts. -/
def DEFAULT_CONFIG : CARValidationConfig :=
  { maxTransactionSize := 100000
    minBalance := 20
    requireDestinationTag := false
    blockedDestinations := []
    maxPendingTransactions := 10 }

/-- utils/types.ts ValidationResult (the optional attestation field is
never set by validate). -/
structure ValidationResult where
  isValid : Bool
  errors : List String
  warnings : List String
deriving DecidableEq

/-- Error message of rule 1 (amount above transaction ceiling). -/
def amountMsg (amount maxSize : ℚ) : String :=
  "Amount " ++ toString amount ++ " exceeds max transaction size " ++ toString maxSize

/-- Error message of rule 2 (insufficient balance). -/
def balanceMsg (balance required : ℚ) : String :=
  "Insufficient balance: have " ++ toString balance ++ ", need " ++ toString required
    ++ " (amount + fee + reserve)"

/-- Error message of rule 3 (blocked destination). -/
def blockedMsg (destination : String) : String :=
  "Destination " ++ destination ++ " is blocked"

/-- Error message of rule 4 (fee above the envelope's max fee). -/
def feeMsg (fee maxFee : ℚ) : String :=
  "Route fee " ++ toString fee ++ " exceeds max fee " ++ toString maxFee

/-- Error message of rule 5 (expired envelope). -/
def expiryMsg (expiry now : Int) : String :=
  "Envelope expired at " ++ toString expiry ++ ", current time " ++ toString now

/-- Warning message of rule 7 (low route confidence). -/
def confidenceMsg (confidence : ℚ) : String :=
  "Selected route confidence " ++ toString confidence ++ " is below recommended threshold"

/-- First character of a string, used to tell the rule messages apart. -/
def firstChar (s : String) : Option Char := s.data.head?

/-- car/validate.ts validate with the ambient clock (unix seconds) as the
explicit now parameter: the five error rules evaluated in order with no
short-circuiting, the two warn-only rules, and validity defined as an empty
error list. The ledgerState parameter is accepted but, as in the source,
not consulted by any rule. -/
def validate (computeResult : ComputeResult) (_ledgerState : LedgerState)
    (sourceBalance : ℚ) (config : CARValidationConfig) (now : Int) : ValidationResult :=
  let envelope := computeResult.envelope
  let amount := envelope.amount.value
  let maxSize := config.maxTransactionSize
  let fee := computeResult.selectedRoute.estimatedFee
  let required := amount + fee + config.minBalance
  let errors :=
    (if maxSize < amount then [amountMsg amount maxSize] else []) ++
    (if sourceBalance < required then [balanceMsg sourceBalance required] else []) ++
    (if config.blockedDestinations.contains envelope.destination then
      [blockedMsg envelope.destination] else []) ++
    (if envelope.constraints.maxFee < fee then [feeMsg fee envelope.constraints.maxFee] else []) ++
    (if envelope.constraints.expiry ≤ now then
      [expiryMsg envelope.constraints.expiry now] else [])
  let warnings :=
    (if envelope.requiredProofs.length > 0 then
      ["Proof verification not yet implemented"] else []) ++
    (if computeResult.selectedRoute.confidence < 4 / 5 then
      [confidenceMsg computeResult.selectedRoute.confidence] else [])
  { isValid := errors.isEmpty, errors := errors, warnings := warnings }

/-- Failure condition of validate's rule 1: amount above the transaction
ceiling. -/
abbrev rule1Fails (cr : ComputeResult) (cfg : CARValidationConfig) : Prop :=
  cfg.maxTransactionSize < cr.envelope.amount.value

/-- Failure condition of validate's rule 2: balance below amount + fee +
reserve. -/
abbrev rule2Fails (cr : ComputeResult) (bal : ℚ) (cfg : CARValidationConfig) : Prop :=
  bal < cr.envelope.amount.value + cr.selectedRoute.estimatedFee + cfg.minBalance

/-- Failure condition of validate's rule 3: blocklisted destination. -/
abbrev rule3Fails (cr : ComputeResult) (cfg : CARValidationConfig) : Prop :=
  cfg.blockedDestinations.contains cr.envelope.destination = true

/-- Failure condition of validate's rule 4: route fee above the envelope's
max fee. -/
abbrev rule4Fails (cr : ComputeResult) : Prop :=
  cr.envelope.constraints.maxFee < cr.selectedRoute.estimatedFee

/-- Failure condition of validate's rule 5: envelope expired (inclusive
boundary). -/
abbrev rule5Fails (cr : ComputeResult) (now : Int) : Prop :=
  cr.envelope.constraints.expiry ≤ now

/-! ## pie.schema.ts : the PIE-layer expiry check -/

/-- pie.schema.ts isExpired with Date.now() (milliseconds) as the explicit
nowMs parameter: a strict comparison against expiry seconds scaled to
milliseconds. -/
def isExpired (envelope : PaymentIntentEnvelope) (nowMs : Int) : Bool :=
  decide (nowMs > envelope.constraints.expiry * 1000)

/-! ## car/attest.ts : attestation freshness used by the router -/

/-- car/attest.ts AttestResult: the bundle handed to the submission
router. -/
structure AttestResult where
  attestId : String
  timestamp : Int
  envelope : PaymentIntentEnvelope
  computeResult : ComputeResult
  validationResult : ValidationResult
  attestation : AttestationRecord
  attestationChain : List AttestationRecord
deriving DecidableEq

/-- car/attest.ts isAttestationValid: the attestation's age against a
maximum (default 300000 ms), with Date.now() explicit. -/
def isAttestationValid (attestation : AttestationRecord) (maxAge now : Int) : Bool :=
  decide (now - attestation.timestamp < maxAge)

/-! ## car/route.ts : the submission router and the halt flag -/

/-- The module-level mutable halt state of car/route.ts
(routingHalted / haltReason). -/
structure HaltState where
  halted : Bool
  reason : Option String
deriving DecidableEq

/-- Initial module state: routingHalted = false, haltReason = null. -/
def initialHaltState : HaltState := { halted := false, reason := none }

/-- car/route.ts haltRouting: set the flag and record the reason. -/
def haltRouting (reason : String) (_s : HaltState) : HaltState :=
  { halted := true, reason := some reason }

/-- car/route.ts resumeRouting: clear the flag and the reason. -/
def resumeRouting (_s : HaltState) : HaltState :=
  { halted := false, reason := none }

/-- car/route.ts isRoutingHalted: read the flag and the reason. -/
def isRoutingHalted (s : HaltState) : Bool × Option String :=
  (s.halted, s.reason)

/-- Ledger type union of car/route.ts RouteConfig. -/
inductive LedgerType
  | xrpl
  | ilp
  | test
deriving DecidableEq

/-- car/route.ts RouteConfig. -/
structure RouteConfig where
  ledgerType : LedgerType
  nodeUrl : String
  timeout : Int
  retryCount : Int
deriving DecidableEq

/-- utils/types.ts SubmissionResult. -/
structure SubmissionResult where
  success : Bool
  transactionHash : Option String
  ledgerIndex : Option Int
  error : Option String
deriving DecidableEq

/-- car/route.ts RouteResult; the untyped ledgerResponse is a string tag
(the testnet backend returns a simulated marker object, the others null). -/
structure RouteResult where
  routeId : String
  timestamp : Int
  attestResult : AttestResult
  submission : SubmissionResult
  ledgerResponse : Option String
deriving DecidableEq

/-- car/route.ts submitToXRPL: unimplemented placeholder failure. -/
def submitToXRPL (_attestResult : AttestResult) (_config : RouteConfig) :
    SubmissionResult × Option String :=
  ({ success := false, transactionHash := none, ledgerIndex := none
     error := some "XRPL submission not yet implemented" }, none)

/-- car/route.ts submitToILP: unimplemented placeholder failure. -/
def submitToILP (_attestResult : AttestResult) (_config : RouteConfig) :
    SubmissionResult × Option String :=
  ({ success := false, transactionHash := none, ledgerIndex := none
     error := some "ILP submission not yet implemented" }, none)

/-- car/route.ts submitToTestnet: simulated success, with Date.now() and
Math.floor(Math.random() * 1000000) as explicit now / rand parameters. -/
def submitToTestnet (now rand : Int) : SubmissionResult × Option String :=
  ({ success := true, transactionHash := some ("test-tx-" ++ toString now)
     ledgerIndex := some rand, error := none }, some "simulated")

/-- car/route.ts route, with the module's halt state passed in explicitly
so that statements can quantify over it. The source function checks
attestation freshness and then dispatches by ledger type; it never reads
the halt state (the parameter is deliberately unused, mirroring the
source). The second component counts backend dispatch calls performed. -/
def route (attestResult : AttestResult) (config : RouteConfig) (_halt : HaltState)
    (now rand : Int) : RouteResult × Nat :=
  if ¬ isAttestationValid attestResult.attestation 300000 now then
    ({ routeId := "route-" ++ toString now
       timestamp := now
       attestResult := attestResult
       submission := { success := false, transactionHash := none, ledgerIndex := none
                       error := some "Attestation expired" }
       ledgerResponse := none }, 0)
  else
    let sub :=
      match config.ledgerType with
      | .xrpl => submitToXRPL attestResult config
      | .ilp => submitToILP attestResult config
      | .test => submitToTestnet now rand
    ({ routeId := "route-" ++ toString now
       timestamp := now
       attestResult := attestResult
       submission := sub.1
       ledgerResponse := sub.2 }, 1)

/-! ## optimizers/dwave : rotation model, greedy adapter and orchestrator -/

/-- Rotation node (model.ts RotationNode); the tier is the runtime string
checked against TIER_PRIORITY. -/
structure RotationNode where
  id : String
  tier : String
  windowStartUtc : String
  windowEndUtc : String
  maxDowntimeMinutes : ℚ
  dependencies : List String
deriving DecidableEq

/-- model.ts TIER_PRIORITY lookup (membership in the record doubles as the
tier-validity check). -/
def TIER_PRIORITY : String → Option Nat
  | "CRITICAL" => some 0
  | "HIGH" => some 1
  | "MEDIUM" => some 2
  | "LOW" => some 3
  | _ => none

/-- model.ts isValidRotationNode; the typeof number and isArray checks hold
identically in this model, and an empty tier string is outside
TIER_PRIORITY so the falsiness check on tier is subsumed. -/
def isValidRotationNode (node : RotationNode) : Bool :=
  if node.id = "" then false
  else if (TIER_PRIORITY node.tier).isNone then false
  else if node.windowStartUtc = "" then false
  else if node.windowEndUtc = "" then false
  else true

/-- model.ts RotationConstraints. -/
structure RotationConstraints where
  maxConcurrent : Int
  maxTotalDowntimeMinutes : ℚ
  epochTarget : Int
deriving DecidableEq

/-- model.ts isValidConstraints; the typeof number checks hold identically
here, leaving the maxConcurrent lower bound. -/
def isValidConstraints (constraints : RotationConstraints) : Bool :=
  decide (1 ≤ constraints.maxConcurrent)

/-- model.ts RotationPlanItem. -/
structure RotationPlanItem where
  id : String
  scheduledStartUtc : String
  scheduledEndUtc : String
  epoch : Int
deriving DecidableEq

/-- model.ts RotationPlan. -/
structure RotationPlan where
  epoch : Int
  items : List RotationPlanItem
  score : Int
  notes : List String
deriving DecidableEq

/-- The greedy adapter's sort order (adapter.ts): tier priority ascending,
then window start ascending (localeCompare on the ISO strings); holds
exactly when the comparator is non-positive. TIER_PRIORITY is total on
inputs that passed node validation; unknown tiers default to 0 here. -/
def rotationLE (a b : RotationNode) : Bool :=
  let pa := (TIER_PRIORITY a.tier).getD 0
  let pb := (TIER_PRIORITY b.tier).getD 0
  if pa ≠ pb then decide (pa < pb)
  else decide (a.windowStartUtc ≤ b.windowStartUtc)

/-- adapter.ts greedyRotationAdapter.solve: stable sort, assign each node
its declared window at the target epoch, score by item count. -/
def greedySolve (nodes : List RotationNode) (constraints : RotationConstraints) :
    RotationPlan :=
  let sorted := nodes.mergeSort rotationLE
  let items := sorted.map fun n =>
    ({ id := n.id, scheduledStartUtc := n.windowStartUtc, scheduledEndUtc := n.windowEndUtc
       epoch := constraints.epochTarget } : RotationPlanItem)
  { epoch := constraints.epochTarget
    items := items
    score := items.length
    notes :=
      [ "Used GREEDY_FALLBACK_V1 adapter (no D-Wave)."
      , "Processed " ++ toString nodes.length ++ " nodes."
      , "maxConcurrent=" ++ toString constraints.maxConcurrent
          ++ " constraint applied via sequential scheduling." ] }

/-- JS new Map(nodes.map(n => [n.id, n])) lookup: later entries overwrite
earlier ones, so a lookup returns the last node with the given id. -/
def nodeMapFind (nodes : List RotationNode) (id : String) : Option RotationNode :=
  nodes.reverse.find? fun n => n.id = id

/-- Successors of an id in the dependency graph walked by validateNoCycles:
the dependency list of the mapped node, empty when the id is unmapped. -/
def succs (nodes : List RotationNode) (id : String) : List String :=
  match nodeMapFind nodes id with
  | some n => n.dependencies
  | none => []

mutual

/-- The recursive hasCycle closure of RotationOptimizer.validateNoCycles:
on-stack hit reports a cycle, visited hit reports none, otherwise mark
visited and on-stack and walk the dependencies. The JS recursion carries no
fuel; here fuel bounds the recursion depth, and the fuel-out value true is
unreachable from visitTop because each nested guarded call adds a fresh id
(drawn from the finite id universe of the node list) to visited. -/
def visit (nodes : List RotationNode) (fuel : Nat) (id : String)
    (visited stack : List String) : Bool × List String :=
  match fuel with
  | 0 => (true, visited)
  | fuel + 1 =>
    if id ∈ stack then (true, visited)
    else if id ∈ visited then (false, visited)
    else visitDeps nodes fuel (succs nodes id) (id :: visited) (id :: stack)
termination_by (fuel, 0)

/-- The for-loop over node.dependencies inside hasCycle, threading the
mutable visited set and short-circuiting on a found cycle. -/
def visitDeps (nodes : List RotationNode) (fuel : Nat) (deps : List String)
    (visited stack : List String) : Bool × List String :=
  match deps with
  | [] => (false, visited)
  | d :: ds =>
    match visit nodes fuel d visited stack with
    | (true, visited1) => (true, visited1)
    | (false, visited1) => visitDeps nodes fuel ds visited1 stack
termination_by (fuel, deps.length + 1)

end

/-- Fuel that the recursion can never exhaust: one more than the number of
ids mentioned anywhere in the node list. -/
def fuelBound (nodes : List RotationNode) : Nat :=
  (nodes.map RotationNode.id ++ nodes.flatMap RotationNode.dependencies).length + 1

/-- The outer for-loop of validateNoCycles: run hasCycle from every node id
with the persistently growing visited set (the on-stack set is empty
between outer calls), returning the id whose traversal found a cycle. -/
def validateLoop (nodes : List RotationNode) (fuel : Nat) :
    List RotationNode → List String → Option String
  | [], _ => none
  | n :: rest, visited =>
    match visit nodes fuel n.id visited [] with
    | (true, _) => some n.id
    | (false, visited1) => validateLoop nodes fuel rest visited1

/-- RotationOptimizer.validateNoCycles: some id when a cycle was detected
(the thrown error names that id), none otherwise. -/
def validateNoCycles (nodes : List RotationNode) : Option String :=
  validateLoop nodes (fuelBound nodes) nodes []

/-- Error outcomes of RotationOptimizer.buildPlan, in throw order. -/
inductive BuildPlanError
  | invalidNode (id : String)
  | invalidConstraints
  | dependencyCycle (id : String)
deriving DecidableEq

/-- RotationOptimizer.buildPlan with the default greedy adapter: validate
every node, validate the constraints, check for dependency cycles, then and
only then invoke the adapter. -/
def buildPlan (nodes : List RotationNode) (constraints : RotationConstraints) :
    Except BuildPlanError RotationPlan :=
  match nodes.find? (fun n => ¬ isValidRotationNode n) with
  | some n => .error (.invalidNode n.id)
  | none =>
    if ¬ isValidConstraints constraints then .error .invalidConstraints
    else
      match validateNoCycles nodes with
      | some id => .error (.dependencyCycle id)
      | none => .ok (greedySolve nodes constraints)

/-- One dependency edge of the graph validateNoCycles walks. -/
abbrev depEdge (nodes : List RotationNode) (u v : String) : Prop :=
  v ∈ succs nodes u

/-! ## Concrete sample data used by witnesses and counterexamples -/

/-- A structurally valid sample envelope: send 100 XRP, max fee 1, expiry
at unix second 1700000300. -/
def sampleEnvelope : PaymentIntentEnvelope :=
  { intentId := "intent-1"
    action := .send
    amount := { value := 100, currency := "XRP" }
    destination := "rDest1"
    constraints := { maxSlippage := 1 / 100, maxFee := 1, expiry := 1700000300 }
    riskBounds := { maxVolatility := 1 / 10, complianceFlags := [] }
    allowedRoutes := []
    requiredProofs := []
    explanation := "a simple payment intent" }

/-- A sample ledger state with a 0.01 network fee. -/
def sampleLedger : LedgerState :=
  { networkFee := 1 / 100, lastLedgerIndex := 5, reserves := [] }

/-- A sample attestation record timestamped at 0. -/
def sampleAttestRecord : AttestationRecord :=
  { attestationId := "attest-0"
    envelopeId := "intent-1"
    timestamp := 0
    signature := "sig-x"
    publicKey := "pub"
    validationHash := "hash-x" }

/-- A sample compute result selecting the direct route. -/
def sampleComputeResult : ComputeResult :=
  { computeId := "compute-0"
    timestamp := 0
    envelope := sampleEnvelope
    selectedRoute :=
      { routeId := "route-direct-0", type := .direct, path := ["rDest1"]
        estimatedFee := 1 / 100, estimatedTime := 4, confidence := 99 / 100 }
    alternativeRoutes := []
    computeTimeMs := 0 }

/-- A passing sample validation result. -/
def sampleValidationResult : ValidationResult :=
  { isValid := true, errors := [], warnings := [] }

/-- A sample attested bundle, fresh at clock 0. -/
def sampleAttestResult : AttestResult :=
  { attestId := "attest-0"
    timestamp := 0
    envelope := sampleEnvelope
    computeResult := sampleComputeResult
    validationResult := sampleValidationResult
    attestation := sampleAttestRecord
    attestationChain := [sampleAttestRecord] }

/-- A route configuration pointing at the deterministic test backend. -/
def testRouteConfig : RouteConfig :=
  { ledgerType := .test, nodeUrl := "http://localhost", timeout := 5000, retryCount := 0 }

/-- A hybrid-policy attestation record with the classical signature field
absent. -/
def hybridMissingClassicalAttestation : CarAttestation :=
  { attestationId := "att-1"
    suite := "CAR_ATTEST_V1_HYBRID"
    cryptoPolicy := "HYBRID_ED25519_PLUS_DILITHIUM"
    keyEpoch := 1
    createdAt := 0
    envelopeHashHex := "ab"
    classicalSig := none
    pqcSig := some ⟨"dilithium2", "pk", "sg"⟩
    meta := [] }

/-- An envelope whose non-empty allow-list excludes every candidate type. -/
def multiHopOnlyEnvelope : PaymentIntentEnvelope :=
  { sampleEnvelope with allowedRoutes := ["multi-hop"] }

/-- A ledger state with unit network fee, convenient for evaluating the
candidate generator. -/
def unitFeeLedger : LedgerState :=
  { networkFee := 1, lastLedgerIndex := 5, reserves := [] }

/-- The sample envelope with a zero max-fee cap that no candidate can
meet. -/
def lowFeeCapEnvelope : PaymentIntentEnvelope :=
  { sampleEnvelope with
    constraints := { maxSlippage := 1 / 100, maxFee := 0, expiry := 1700000300 } }

/-- The sample envelope restricted to ILP routes only. -/
def routesRestrictedEnvelope : PaymentIntentEnvelope :=
  { sampleEnvelope with allowedRoutes := ["ilp"] }

/-- The direct candidate produced for the sample envelope on the unit-fee
ledger at clock 0. -/
def cexDirectRoute : Route :=
  { routeId := "route-direct-" ++ toString (0 : Int)
    type := .direct
    path := ["rDest1"]
    estimatedFee := 1
    estimatedTime := 4
    confidence := 99 / 100 }

/-- The ILP candidate produced for the sample envelope on the unit-fee
ledger at clock 0. -/
def cexIlpRoute : Route :=
  { routeId := "route-ilp-" ++ toString (0 : Int)
    type := .ilp
    path := ["ilp-connector", "rDest1"]
    estimatedFee := multiplyFee 1 3
    estimatedTime := 15
    confidence := 85 / 100 }

/-- The sample envelope with only the intent id changed. -/
def renamedEnvelope : PaymentIntentEnvelope :=
  { sampleEnvelope with intentId := "intent-2" }

/-- The clock-derived route identifier of each candidate the generator can
produce, by route type. -/
def routeIdForType (t : RouteType) (now : Int) : String :=
  (match t with
    | .direct => "route-direct-"
    | .xrplDex => "route-dex-"
    | .ilp => "route-ilp-"
    | .multiHop => "route-multihop-") ++ toString now

/-- Re-derive a candidate's clock-stamped identifier at another clock
value, leaving every routing-relevant field unchanged. -/
def restampRoute (now : Int) (r : Route) : Route :=
  { r with routeId := routeIdForType r.type now }

/-- Re-derive the clock-stamped fields of a compute result at another
clock value. -/
def restampComputeResult (now : Int) (cr : ComputeResult) : ComputeResult :=
  { cr with
    computeId := "compute-" ++ toString now
    timestamp := now
    selectedRoute := restampRoute now cr.selectedRoute
    alternativeRoutes := cr.alternativeRoutes.map (restampRoute now) }

/-- Loop invariant of the cycle DFS. A finished (black) vertex is one that
is visited and not on the stack. The invariant states that black vertices
are closed under dependency edges and that no black vertex lies on a
dependency cycle. -/
def dfsInv (nodes : List RotationNode) (V S : List String) : Prop :=
  (∀ v, v ∈ V → v ∉ S → ∀ w ∈ succs nodes v, w ∈ V ∧ w ∉ S)
  ∧ (∀ v, v ∈ V → v ∉ S → ¬ Relation.TransGen (depEdge nodes) v v)

/-- Rotation node A of the concrete dependency cycle A to B to C to A. -/
def cycNodeA : RotationNode :=
  { id := "A", tier := "HIGH", windowStartUtc := "2026-01-01T00:00:00Z"
    windowEndUtc := "2026-01-01T01:00:00Z", maxDowntimeMinutes := 5
    dependencies := ["B"] }

/-- Rotation node B of the concrete cycle. -/
def cycNodeB : RotationNode :=
  { id := "B", tier := "MEDIUM", windowStartUtc := "2026-01-01T01:00:00Z"
    windowEndUtc := "2026-01-01T02:00:00Z", maxDowntimeMinutes := 5
    dependencies := ["C"] }

/-- Rotation node C of the concrete cycle. -/
def cycNodeC : RotationNode :=
  { id := "C", tier := "LOW", windowStartUtc := "2026-01-01T02:00:00Z"
    windowEndUtc := "2026-01-01T03:00:00Z", maxDowntimeMinutes := 5
    dependencies := ["A"] }

/-- A structurally valid node set forming the cycle A to B to C to A. -/
def cycNodes : List RotationNode := [cycNodeA, cycNodeB, cycNodeC]

/-- An invalid constraint set (maxConcurrent below one). -/
def badConstraints : RotationConstraints :=
  { maxConcurrent := 0, maxTotalDowntimeMinutes := 60, epochTarget := 2 }

/-- A valid constraint set. -/
def goodConstraints : RotationConstraints :=
  { maxConcurrent := 5, maxTotalDowntimeMinutes := 60, epochTarget := 2 }

/-! ## General helper lemmas about the embedded functions -/

/-- Evaluation lemma for the stable sort on a two-element list. -/
theorem mergeSort_pair {α : Type} (le : α → α → Bool) (a b : α) :
    [a, b].mergeSort le = if le a b then [a, b] else [b, a] := by
  rw [List.mergeSort]
  simp [List.splitInTwo, List.splitAt, List.splitAt.go, List.merge]

/-- selectOptimalRoute on the empty candidate list is the no-route
error. -/
theorem selectOptimalRoute_nil (e : PaymentIntentEnvelope) :
    selectOptimalRoute [] e = Except.error "No valid routes available" := by
  unfold selectOptimalRoute
  rw [List.mergeSort_nil]

/-- selectOptimalRoute on a non-empty candidate list never returns an
error: the only error branch is the empty-sort branch, and the stable sort
of a non-empty list is non-empty. -/
theorem selectOptimalRoute_ne_error (routes : List Route) (e : PaymentIntentEnvelope)
    (h : routes ≠ []) (s : String) : selectOptimalRoute routes e ≠ Except.error s := by
  rcases hm : routes.mergeSort routeLE with _ | ⟨s0, rest⟩
  · exfalso
    apply h
    have hlen : (routes.mergeSort routeLE).length = routes.length :=
      List.length_mergeSort routes
    rw [hm] at hlen
    exact List.eq_nil_of_length_eq_zero hlen.symm
  · have heq : selectOptimalRoute routes e =
        (match (s0 :: rest).filter
            (fun r => decide (r.estimatedFee ≤ e.constraints.maxFee)) with
          | [] => Except.ok s0
          | v0 :: _ => Except.ok v0) := by
      unfold selectOptimalRoute
      rw [hm]
    rw [heq]
    cases (s0 :: rest).filter (fun r => decide (r.estimatedFee ≤ e.constraints.maxFee)) <;>
      simp

/-! ## C1 -/

/-- C1: the halt flag never influences route. haltRouting does set the
flag, yet a submission attempted while halted is dispatched to the backend
exactly once and succeeds on the test backend instead of failing with a
RoutingHalted error: the source's route function never reads the
routingHalted flag, contradicting the halt/resume contract it announces. -/
theorem c1_route_ignores_halt_flag :
    (∀ (a : AttestResult) (cfg : RouteConfig) (s : HaltState) (r : String) (now rand : Int),
      route a cfg (haltRouting r s) now rand = route a cfg s now rand)
    ∧ (isRoutingHalted (haltRouting "incident" initialHaltState)).1 = true
    ∧ (route sampleAttestResult testRouteConfig (haltRouting "incident" initialHaltState) 0 0).2
        = 1
    ∧ (route sampleAttestResult testRouteConfig
        (haltRouting "incident" initialHaltState) 0 0).1.submission.success = true
    ∧ (route sampleAttestResult testRouteConfig
        (haltRouting "incident" initialHaltState) 0 0).1.submission.error = none :=
  ⟨fun _ _ _ _ _ _ => rfl, rfl, rfl, rfl, rfl⟩

/-! ## C3 -/

/-- C3 counterexample: verifying a freshly produced attestation against its
source envelope returns false, not true, because verifySignature is a
placeholder that always returns false. -/
theorem c3_fresh_attestation_fails_cex :
    verifyAttestation sampleEnvelope (createAttestation sampleEnvelope "priv" "pub" 0)
      = false := by
  simp [verifyAttestation, createAttestation, verifySignature]

/-- C3 (amended): hashing an envelope twice yields the same hash, and a
fresh attestation records exactly that hash, so verifyAttestation's hash
comparison succeeds; the overall verification nevertheless returns false
for every envelope and key pair, because the placeholder verifySignature
always returns false. -/
theorem c3_hash_deterministic_verify_placeholder :
    ∀ (e : PaymentIntentEnvelope) (priv pub : String) (now : Int),
      hashEnvelope e = hashEnvelope e
      ∧ (createAttestation e priv pub now).validationHash = hashEnvelope e
      ∧ verifyAttestation e (createAttestation e priv pub now) = false := by
  intro e priv pub now
  refine ⟨rfl, rfl, ?_⟩
  simp [verifyAttestation, createAttestation, verifySignature]

/-! ## C4 -/

/-- C4 counterexample: createAttestor on the enumerated policy
CLASSICAL_ONLY does not return an attestor; it throws the not-yet-
implemented error (which is also not the UnsupportedPolicy error). -/
theorem c4_classical_only_cex :
    createAttestor "CLASSICAL_ONLY"
      = Except.error "CLASSICAL_ONLY attestor not yet implemented" := rfl

/-- C4 (amended): createAttestor returns a concrete attestor exactly for
the two hybrid policies; the enumerated CLASSICAL_ONLY and
PQC_ONLY_DILITHIUM policies fail fast with not-yet-implemented errors, and
every policy id outside the four-policy enumeration fails fast with the
Unsupported-cryptoPolicy error; getSupportedPolicies lists exactly the two
hybrid policies. -/
theorem c4_suite_selection :
    createAttestor "HYBRID_ED25519_PLUS_DILITHIUM" = Except.ok hybridEd25519DilithiumSuite
    ∧ createAttestor "HYBRID_ECDSA_SECP256K1_PLUS_DILITHIUM"
        = Except.ok hybridEcdsaDilithiumSuite
    ∧ createAttestor "PQC_ONLY_DILITHIUM"
        = Except.error "PQC_ONLY_DILITHIUM attestor not yet implemented"
    ∧ getSupportedPolicies
        = ["HYBRID_ED25519_PLUS_DILITHIUM", "HYBRID_ECDSA_SECP256K1_PLUS_DILITHIUM"]
    ∧ isPolicySupported "CLASSICAL_ONLY" = false
    ∧ (∀ p : String, p ≠ "HYBRID_ED25519_PLUS_DILITHIUM" →
        p ≠ "HYBRID_ECDSA_SECP256K1_PLUS_DILITHIUM" → p ≠ "CLASSICAL_ONLY" →
        p ≠ "PQC_ONLY_DILITHIUM" →
        createAttestor p
          = Except.error ("Unsupported cryptoPolicy for CAR attestation: " ++ p)) := by
  refine ⟨rfl, rfl, rfl, rfl, rfl, ?_⟩
  intro p h1 h2 h3 h4
  simp [createAttestor, h1, h2, h3, h4]

/-- C4 witness: the amended theorem applied at a concrete out-of-
enumeration policy id. -/
theorem c4_suite_selection_witness :
    createAttestor "FOO"
      = Except.error ("Unsupported cryptoPolicy for CAR attestation: " ++ "FOO") :=
  c4_suite_selection.2.2.2.2.2 "FOO" (by decide) (by decide) (by decide) (by decide)

/-! ## C7 -/

/-- C7 counterexample: at the exact expiry instant (Date.now() equal to
expiry seconds scaled to milliseconds) the PIE-layer isExpired reports the
envelope as not expired, because its comparison is strict. -/
theorem c7_pie_expiry_boundary_cex :
    isExpired sampleEnvelope (sampleEnvelope.constraints.expiry * 1000) = false := by
  decide

/-- C7 (amended): the CAR validator's expiry rule is inclusive: when the
clock equals the envelope's expiry, the expiry error is always among the
produced errors; the PIE-layer isExpired, by contrast, is strict: it
reports not-expired at the exact expiry millisecond and reports expired
only strictly afterwards. -/
theorem c7_expiry_boundary_semantics :
    (∀ (cr : ComputeResult) (ls : LedgerState) (bal : ℚ) (cfg : CARValidationConfig),
      expiryMsg cr.envelope.constraints.expiry cr.envelope.constraints.expiry
        ∈ (validate cr ls bal cfg cr.envelope.constraints.expiry).errors)
    ∧ (∀ e : PaymentIntentEnvelope, isExpired e (e.constraints.expiry * 1000) = false)
    ∧ (∀ (e : PaymentIntentEnvelope) (t : Int),
        isExpired e t = decide (e.constraints.expiry * 1000 < t)) := by
  refine ⟨?_, ?_, ?_⟩
  · intro cr ls bal cfg
    simp [validate, List.mem_append]
  · intro e
    simp [isExpired]
  · intro e t
    rfl

/-! ## C5 -/

/-- C5: structural verification rejects every hybrid-policy attestation
missing either signature field, and both hybrid suites always attest with
both fields populated, the classical algorithm tag matching the policy's
classical side and the PQC bundle populated. -/
theorem c5_hybrid_signature_presence :
    (∀ a : CarAttestation,
      (a.cryptoPolicy = "HYBRID_ED25519_PLUS_DILITHIUM" ∨
        a.cryptoPolicy = "HYBRID_ECDSA_SECP256K1_PLUS_DILITHIUM") →
      (a.classicalSig = none ∨ a.pqcSig = none) →
      isValidAttestationStructure a = false)
    ∧ (∀ (ext : CryptoExternals) (uuid : String) (now : Int) (input : AttestInput),
        (hybridEcdsaDilithiumSuite.attest ext uuid now input).attestation.classicalSig
          = some ⟨"secp256k1", "SECP256K1_PUBLIC_KEY_HEX_PLACEHOLDER",
              "SECP256K1_SIGNATURE_HEX_PLACEHOLDER"⟩
        ∧ (hybridEcdsaDilithiumSuite.attest ext uuid now input).attestation.pqcSig
          = some ⟨"dilithium2", "DILITHIUM_PUBLIC_KEY_HEX_PLACEHOLDER",
              "DILITHIUM_SIGNATURE_HEX_PLACEHOLDER"⟩)
    ∧ (∀ (ext : CryptoExternals) (uuid : String) (now : Int) (input : AttestInput),
        (hybridEd25519DilithiumSuite.attest ext uuid now input).attestation.classicalSig
          = some ⟨"ed25519", "ED25519_PUBLIC_KEY_HEX_PLACEHOLDER",
              "ED25519_SIGNATURE_HEX_PLACEHOLDER"⟩
        ∧ (hybridEd25519DilithiumSuite.attest ext uuid now input).attestation.pqcSig
          = some ⟨"dilithium2", "DILITHIUM_PUBLIC_KEY_HEX_PLACEHOLDER",
              "DILITHIUM_SIGNATURE_HEX_PLACEHOLDER"⟩) := by
  refine ⟨?_, ?_, ?_⟩
  · intro a hpol hmiss
    have hH : stringHasToken a.cryptoPolicy "HYBRID" = true := by
      rcases hpol with h | h <;> rw [h] <;> decide
    rcases hmiss with h | h <;> simp [isValidAttestationStructure, hH, h]
  · intro ext uuid now input
    exact ⟨rfl, rfl⟩
  · intro ext uuid now input
    exact ⟨rfl, rfl⟩

/-- C5 witness: the theorem applied to a concrete hybrid attestation with
the classical signature missing. -/
theorem c5_hybrid_signature_presence_witness :
    isValidAttestationStructure hybridMissingClassicalAttestation = false :=
  c5_hybrid_signature_presence.1 hybridMissingClassicalAttestation (Or.inl rfl) (Or.inl rfl)

/-! ## C10 -/

/-- C10: the candidate list always contains the unconditional ILP route and
is never empty, so the no-route failure of selectOptimalRoute can only
arise when the envelope's allow-list is non-empty, contains no wildcard,
and excludes the type of every candidate. -/
theorem c10_ilp_candidate_always_present :
    ∀ (e : PaymentIntentEnvelope) (ls : LedgerState) (now : Int),
      (∃ r ∈ getCandidateRoutes e ls now, r.type = RouteType.ilp)
      ∧ getCandidateRoutes e ls now ≠ []
      ∧ (selectOptimalRoute
            (filterByAllowedRoutes (getCandidateRoutes e ls now) e.allowedRoutes) e
            = Except.error "No valid routes available" →
          e.allowedRoutes ≠ [] ∧ "*" ∉ e.allowedRoutes
          ∧ ∀ r ∈ getCandidateRoutes e ls now, r.type.str ∉ e.allowedRoutes) := by
  intro e ls now
  have hmem : ∃ r ∈ getCandidateRoutes e ls now, r.type = RouteType.ilp := by
    refine ⟨⟨"route-ilp-" ++ toString now, .ilp, ["ilp-connector", e.destination],
      multiplyFee ls.networkFee 3, 15, 85 / 100⟩, ?_, rfl⟩
    simp [getCandidateRoutes]
  have hne : getCandidateRoutes e ls now ≠ [] := by
    obtain ⟨r, hr, _⟩ := hmem
    exact List.ne_nil_of_mem hr
  refine ⟨hmem, hne, ?_⟩
  intro herr
  have hfil : filterByAllowedRoutes (getCandidateRoutes e ls now) e.allowedRoutes = [] := by
    by_contra hf
    exact selectOptimalRoute_ne_error _ e hf _ herr
  have hA : e.allowedRoutes ≠ [] := by
    intro h
    rw [filterByAllowedRoutes, if_pos h] at hfil
    exact hne hfil
  rw [filterByAllowedRoutes, if_neg hA] at hfil
  have hall := List.filter_eq_nil_iff.mp hfil
  obtain ⟨r0, hr0, _⟩ := hmem
  have hstar : "*" ∉ e.allowedRoutes := by
    have h2 := hall r0 hr0
    simp only [Bool.or_eq_true, not_or, List.contains, List.elem_eq_mem,
      decide_eq_true_eq] at h2
    exact h2.2
  refine ⟨hA, hstar, ?_⟩
  intro r hr
  have h2 := hall r hr
  simp only [Bool.or_eq_true, not_or, List.contains, List.elem_eq_mem,
    decide_eq_true_eq] at h2
  exact h2.1

/-- C10 witness: the theorem applied to a concrete envelope whose
allow-list excludes all candidates, discharging the no-route hypothesis by
evaluation. -/
theorem c10_ilp_candidate_always_present_witness :
    multiHopOnlyEnvelope.allowedRoutes ≠ [] ∧ "*" ∉ multiHopOnlyEnvelope.allowedRoutes
    ∧ ∀ r ∈ getCandidateRoutes multiHopOnlyEnvelope sampleLedger 0,
        r.type.str ∉ multiHopOnlyEnvelope.allowedRoutes :=
  (c10_ilp_candidate_always_present multiHopOnlyEnvelope sampleLedger 0).2.2 (by
    rw [show filterByAllowedRoutes (getCandidateRoutes multiHopOnlyEnvelope sampleLedger 0)
        multiHopOnlyEnvelope.allowedRoutes = [] from rfl]
    exact selectOptimalRoute_nil _)

/-! ## Distinctness of the validator's rule messages -/

/-- A string inequality follows from distinct first characters. -/
theorem ne_of_firstChar_ne {s t : String} (h : firstChar s ≠ firstChar t) : s ≠ t :=
  fun he => h (he ▸ rfl)

/-- The first character of an append is that of a non-empty left part. -/
theorem firstChar_append_left (p s : String) (c : Char) (h : firstChar p = some c) :
    firstChar (p ++ s) = some c := by
  unfold firstChar at h ⊢
  rw [String.data_append]
  cases hp : p.data with
  | nil => rw [hp] at h; simp at h
  | cons d ds =>
    rw [hp] at h
    simp at h
    simp [hp, h]

theorem amountMsg_firstChar (a b : ℚ) : firstChar (amountMsg a b) = some 'A' := by
  unfold amountMsg
  apply firstChar_append_left
  apply firstChar_append_left
  apply firstChar_append_left
  rfl

theorem balanceMsg_firstChar (a b : ℚ) : firstChar (balanceMsg a b) = some 'I' := by
  unfold balanceMsg
  apply firstChar_append_left
  apply firstChar_append_left
  apply firstChar_append_left
  apply firstChar_append_left
  rfl

theorem blockedMsg_firstChar (d : String) : firstChar (blockedMsg d) = some 'D' := by
  unfold blockedMsg
  apply firstChar_append_left
  apply firstChar_append_left
  rfl

theorem feeMsg_firstChar (a b : ℚ) : firstChar (feeMsg a b) = some 'R' := by
  unfold feeMsg
  apply firstChar_append_left
  apply firstChar_append_left
  apply firstChar_append_left
  rfl

theorem expiryMsg_firstChar (a b : Int) : firstChar (expiryMsg a b) = some 'E' := by
  unfold expiryMsg
  apply firstChar_append_left
  apply firstChar_append_left
  apply firstChar_append_left
  rfl

@[simp] theorem amountMsg_ne_balanceMsg (a b c d : ℚ) : amountMsg a b ≠ balanceMsg c d :=
  ne_of_firstChar_ne (by rw [amountMsg_firstChar, balanceMsg_firstChar]; decide)

@[simp] theorem balanceMsg_ne_amountMsg (a b c d : ℚ) : balanceMsg a b ≠ amountMsg c d :=
  ne_of_firstChar_ne (by rw [amountMsg_firstChar, balanceMsg_firstChar]; decide)

@[simp] theorem amountMsg_ne_blockedMsg (a b : ℚ) (d : String) : amountMsg a b ≠ blockedMsg d :=
  ne_of_firstChar_ne (by rw [amountMsg_firstChar, blockedMsg_firstChar]; decide)

@[simp] theorem blockedMsg_ne_amountMsg (d : String) (a b : ℚ) : blockedMsg d ≠ amountMsg a b :=
  ne_of_firstChar_ne (by rw [amountMsg_firstChar, blockedMsg_firstChar]; decide)

@[simp] theorem amountMsg_ne_feeMsg (a b c d : ℚ) : amountMsg a b ≠ feeMsg c d :=
  ne_of_firstChar_ne (by rw [amountMsg_firstChar, feeMsg_firstChar]; decide)

@[simp] theorem feeMsg_ne_amountMsg (a b c d : ℚ) : feeMsg a b ≠ amountMsg c d :=
  ne_of_firstChar_ne (by rw [amountMsg_firstChar, feeMsg_firstChar]; decide)

@[simp] theorem amountMsg_ne_expiryMsg (a b : ℚ) (c d : Int) : amountMsg a b ≠ expiryMsg c d :=
  ne_of_firstChar_ne (by rw [amountMsg_firstChar, expiryMsg_firstChar]; decide)

@[simp] theorem expiryMsg_ne_amountMsg (c d : Int) (a b : ℚ) : expiryMsg c d ≠ amountMsg a b :=
  ne_of_firstChar_ne (by rw [amountMsg_firstChar, expiryMsg_firstChar]; decide)

@[simp] theorem balanceMsg_ne_blockedMsg (a b : ℚ) (d : String) : balanceMsg a b ≠ blockedMsg d :=
  ne_of_firstChar_ne (by rw [balanceMsg_firstChar, blockedMsg_firstChar]; decide)

@[simp] theorem blockedMsg_ne_balanceMsg (d : String) (a b : ℚ) : blockedMsg d ≠ balanceMsg a b :=
  ne_of_firstChar_ne (by rw [balanceMsg_firstChar, blockedMsg_firstChar]; decide)

@[simp] theorem balanceMsg_ne_feeMsg (a b c d : ℚ) : balanceMsg a b ≠ feeMsg c d :=
  ne_of_firstChar_ne (by rw [balanceMsg_firstChar, feeMsg_firstChar]; decide)

@[simp] theorem feeMsg_ne_balanceMsg (a b c d : ℚ) : feeMsg a b ≠ balanceMsg c d :=
  ne_of_firstChar_ne (by rw [balanceMsg_firstChar, feeMsg_firstChar]; decide)

@[simp] theorem balanceMsg_ne_expiryMsg (a b : ℚ) (c d : Int) : balanceMsg a b ≠ expiryMsg c d :=
  ne_of_firstChar_ne (by rw [balanceMsg_firstChar, expiryMsg_firstChar]; decide)

@[simp] theorem expiryMsg_ne_balanceMsg (c d : Int) (a b : ℚ) : expiryMsg c d ≠ balanceMsg a b :=
  ne_of_firstChar_ne (by rw [balanceMsg_firstChar, expiryMsg_firstChar]; decide)

@[simp] theorem blockedMsg_ne_feeMsg (d : String) (a b : ℚ) : blockedMsg d ≠ feeMsg a b :=
  ne_of_firstChar_ne (by rw [blockedMsg_firstChar, feeMsg_firstChar]; decide)

@[simp] theorem feeMsg_ne_blockedMsg (a b : ℚ) (d : String) : feeMsg a b ≠ blockedMsg d :=
  ne_of_firstChar_ne (by rw [blockedMsg_firstChar, feeMsg_firstChar]; decide)

@[simp] theorem blockedMsg_ne_expiryMsg (d : String) (c e : Int) : blockedMsg d ≠ expiryMsg c e :=
  ne_of_firstChar_ne (by rw [blockedMsg_firstChar, expiryMsg_firstChar]; decide)

@[simp] theorem expiryMsg_ne_blockedMsg (c e : Int) (d : String) : expiryMsg c e ≠ blockedMsg d :=
  ne_of_firstChar_ne (by rw [blockedMsg_firstChar, expiryMsg_firstChar]; decide)

@[simp] theorem feeMsg_ne_expiryMsg (a b : ℚ) (c d : Int) : feeMsg a b ≠ expiryMsg c d :=
  ne_of_firstChar_ne (by rw [feeMsg_firstChar, expiryMsg_firstChar]; decide)

@[simp] theorem expiryMsg_ne_feeMsg (c d : Int) (a b : ℚ) : expiryMsg c d ≠ feeMsg a b :=
  ne_of_firstChar_ne (by rw [feeMsg_firstChar, expiryMsg_firstChar]; decide)

/-! ## C6 -/

/-- C6: validity is exactly emptiness of the error list (so warnings never
block); each rule's error message appears in the error list exactly when
that rule fails, independently of the other rules (no short-circuiting);
and whenever exactly one rule fails the error list is exactly that rule's
single entry. -/
theorem c6_validator_exhaustive :
    ∀ (cr : ComputeResult) (ls : LedgerState) (bal : ℚ) (cfg : CARValidationConfig)
      (now : Int),
      ((validate cr ls bal cfg now).isValid = (validate cr ls bal cfg now).errors.isEmpty)
      ∧ ((validate cr ls bal cfg now).isValid = true
          ↔ (validate cr ls bal cfg now).errors = [])
      ∧ (amountMsg cr.envelope.amount.value cfg.maxTransactionSize
          ∈ (validate cr ls bal cfg now).errors ↔ rule1Fails cr cfg)
      ∧ (balanceMsg bal
            (cr.envelope.amount.value + cr.selectedRoute.estimatedFee + cfg.minBalance)
          ∈ (validate cr ls bal cfg now).errors ↔ rule2Fails cr bal cfg)
      ∧ (blockedMsg cr.envelope.destination
          ∈ (validate cr ls bal cfg now).errors ↔ rule3Fails cr cfg)
      ∧ (feeMsg cr.selectedRoute.estimatedFee cr.envelope.constraints.maxFee
          ∈ (validate cr ls bal cfg now).errors ↔ rule4Fails cr)
      ∧ (expiryMsg cr.envelope.constraints.expiry now
          ∈ (validate cr ls bal cfg now).errors ↔ rule5Fails cr now)
      ∧ (rule1Fails cr cfg → ¬rule2Fails cr bal cfg → ¬rule3Fails cr cfg →
          ¬rule4Fails cr → ¬rule5Fails cr now →
          (validate cr ls bal cfg now).errors
            = [amountMsg cr.envelope.amount.value cfg.maxTransactionSize])
      ∧ (¬rule1Fails cr cfg → rule2Fails cr bal cfg → ¬rule3Fails cr cfg →
          ¬rule4Fails cr → ¬rule5Fails cr now →
          (validate cr ls bal cfg now).errors
            = [balanceMsg bal
                (cr.envelope.amount.value + cr.selectedRoute.estimatedFee + cfg.minBalance)])
      ∧ (¬rule1Fails cr cfg → ¬rule2Fails cr bal cfg → rule3Fails cr cfg →
          ¬rule4Fails cr → ¬rule5Fails cr now →
          (validate cr ls bal cfg now).errors = [blockedMsg cr.envelope.destination])
      ∧ (¬rule1Fails cr cfg → ¬rule2Fails cr bal cfg → ¬rule3Fails cr cfg →
          rule4Fails cr → ¬rule5Fails cr now →
          (validate cr ls bal cfg now).errors
            = [feeMsg cr.selectedRoute.estimatedFee cr.envelope.constraints.maxFee])
      ∧ (¬rule1Fails cr cfg → ¬rule2Fails cr bal cfg → ¬rule3Fails cr cfg →
          ¬rule4Fails cr → rule5Fails cr now →
          (validate cr ls bal cfg now).errors
            = [expiryMsg cr.envelope.constraints.expiry now]) := by
  intro cr ls bal cfg now
  by_cases h1 : rule1Fails cr cfg <;>
    by_cases h2 : rule2Fails cr bal cfg <;>
      by_cases h3 : rule3Fails cr cfg <;>
        by_cases h4 : rule4Fails cr <;>
          by_cases h5 : rule5Fails cr now <;>
            simp [validate, rule1Fails, rule2Fails, rule3Fails, rule4Fails, rule5Fails,
              h1, h2, h3, h4, h5]

/-- C6 witness: the single-failure implication for rule 2 applied to the
spec's worked example (amount 100, fee 0.01, balance 50, reserve 20): the
outcome's error list is exactly the insufficient-balance entry. -/
theorem c6_validator_exhaustive_witness :
    (validate sampleComputeResult sampleLedger 50 DEFAULT_CONFIG 0).errors
      = [balanceMsg 50 (100 + 1 / 100 + 20)] :=
  (c6_validator_exhaustive sampleComputeResult sampleLedger 50 DEFAULT_CONFIG
      0).2.2.2.2.2.2.2.2.1
    (by norm_num [rule1Fails, sampleComputeResult, sampleEnvelope, DEFAULT_CONFIG])
    (by norm_num [rule2Fails, sampleComputeResult, sampleEnvelope, DEFAULT_CONFIG])
    (by simp [rule3Fails, DEFAULT_CONFIG])
    (by norm_num [rule4Fails, sampleComputeResult, sampleEnvelope])
    (by norm_num [rule5Fails, sampleComputeResult, sampleEnvelope])

/-! ## Evaluation lemmas on the sample route data -/

/-- multiplyFee on the unit fee with factor 3. -/
theorem multiplyFee_one_three : multiplyFee 1 3 = 3 := by
  unfold multiplyFee
  rw [show ((1 : ℚ) * 3 * 1000000) = ((3000000 : ℤ) : ℚ) by norm_num, round_intCast]
  norm_num

/-- The candidate generator on the sample envelopes over the unit-fee
ledger at clock 0 produces the direct and ILP candidates. -/
theorem candidates_eval :
    getCandidateRoutes sampleEnvelope unitFeeLedger 0 = [cexDirectRoute, cexIlpRoute]
    ∧ getCandidateRoutes lowFeeCapEnvelope unitFeeLedger 0 = [cexDirectRoute, cexIlpRoute]
    ∧ getCandidateRoutes routesRestrictedEnvelope unitFeeLedger 0
        = [cexDirectRoute, cexIlpRoute] :=
  ⟨rfl, rfl, rfl⟩

/-- The comparator prefers the direct candidate (higher confidence). -/
theorem routeLE_direct_ilp : routeLE cexDirectRoute cexIlpRoute = true := by
  unfold routeLE cexDirectRoute cexIlpRoute
  rw [if_pos (by norm_num)]
  norm_num

/-- Stable sort of the two sample candidates. -/
theorem sort_pair_eval :
    [cexDirectRoute, cexIlpRoute].mergeSort routeLE = [cexDirectRoute, cexIlpRoute] := by
  rw [mergeSort_pair, routeLE_direct_ilp]
  simp

/-- Reduction of selectOptimalRoute once the sorted list is known. -/
theorem selectOptimalRoute_eq_of (routes : List Route) (e : PaymentIntentEnvelope)
    (s0 : Route) (rest : List Route) (hs : routes.mergeSort routeLE = s0 :: rest) :
    selectOptimalRoute routes e =
      match (s0 :: rest).filter
          (fun r => decide (r.estimatedFee ≤ e.constraints.maxFee)) with
      | [] => Except.ok s0
      | v0 :: _ => Except.ok v0 := by
  unfold selectOptimalRoute
  rw [hs]

/-! ## C2 -/

/-- C2 counterexample: on the zero-max-fee envelope over the unit-fee
ledger, the filtered candidate set is non-empty, every candidate's fee
exceeds the max fee, and compute still returns a successful selection whose
fee violates the constraint (the silent lowest-sorted fallback). -/
theorem c2_fee_fallback_cex :
    (compute lowFeeCapEnvelope unitFeeLedger 0).map
        (fun cr => decide (lowFeeCapEnvelope.constraints.maxFee < cr.selectedRoute.estimatedFee))
      = Except.ok true
    ∧ filterByAllowedRoutes (getCandidateRoutes lowFeeCapEnvelope unitFeeLedger 0)
        lowFeeCapEnvelope.allowedRoutes ≠ []
    ∧ ((getCandidateRoutes lowFeeCapEnvelope unitFeeLedger 0).all
        fun r => decide (lowFeeCapEnvelope.constraints.maxFee < r.estimatedFee)) = true := by
  have hfil : [cexDirectRoute, cexIlpRoute].filter
      (fun r => decide (r.estimatedFee ≤ lowFeeCapEnvelope.constraints.maxFee)) = [] := by
    simp [List.filter, cexDirectRoute, cexIlpRoute, lowFeeCapEnvelope, multiplyFee_one_three]
    norm_num
  have hsel : selectOptimalRoute [cexDirectRoute, cexIlpRoute] lowFeeCapEnvelope
      = Except.ok cexDirectRoute := by
    rw [selectOptimalRoute_eq_of _ _ _ _ sort_pair_eval, hfil]
  have hsel2 : selectOptimalRoute
      (filterByAllowedRoutes (getCandidateRoutes lowFeeCapEnvelope unitFeeLedger 0)
        lowFeeCapEnvelope.allowedRoutes) lowFeeCapEnvelope = Except.ok cexDirectRoute := by
    rw [candidates_eval.2.1]
    rw [show filterByAllowedRoutes [cexDirectRoute, cexIlpRoute]
        lowFeeCapEnvelope.allowedRoutes = [cexDirectRoute, cexIlpRoute] from rfl]
    exact hsel
  refine ⟨?_, ?_, ?_⟩
  · simp only [compute]
    rw [hsel2]
    simp only [Except.map]
    norm_num [cexDirectRoute, lowFeeCapEnvelope]
  · rw [candidates_eval.2.1]
    rw [show filterByAllowedRoutes [cexDirectRoute, cexIlpRoute]
        lowFeeCapEnvelope.allowedRoutes = [cexDirectRoute, cexIlpRoute] from rfl]
    simp
  · rw [candidates_eval.2.1]
    norm_num [List.all, cexDirectRoute, cexIlpRoute, lowFeeCapEnvelope, multiplyFee_one_three]

/-- C2 (amended): when the candidate set is non-empty and every candidate's
fee exceeds the envelope's max fee, selectOptimalRoute does not fail: it
silently returns the top candidate of the deterministic sort as a normal
success, and that route violates the fee constraint; the violation is only
surfaced downstream, where the rule validator's fee rule makes any
validation of that selection fail. -/
theorem c2_fee_fallback_surfaced_downstream :
    ∀ (routes : List Route) (e : PaymentIntentEnvelope),
      routes ≠ [] →
      (∀ r ∈ routes, e.constraints.maxFee < r.estimatedFee) →
      ∃ r, selectOptimalRoute routes e = Except.ok r
        ∧ e.constraints.maxFee < r.estimatedFee
        ∧ ∀ (cr : ComputeResult) (ls : LedgerState) (bal : ℚ)
            (cfg : CARValidationConfig) (now : Int),
            cr.selectedRoute = r → cr.envelope = e →
            (validate cr ls bal cfg now).isValid = false := by
  intro routes e hne hall
  rcases hm : routes.mergeSort routeLE with _ | ⟨s0, rest⟩
  · exfalso
    apply hne
    have hlen : (routes.mergeSort routeLE).length = routes.length :=
      List.length_mergeSort routes
    rw [hm] at hlen
    exact List.eq_nil_of_length_eq_zero hlen.symm
  · have hs0 : s0 ∈ routes := by
      have hmem : s0 ∈ routes.mergeSort routeLE := by
        rw [hm]
        exact List.mem_cons_self _ _
      exact List.mem_mergeSort.mp hmem
    have hviol := hall s0 hs0
    have hfil : (s0 :: rest).filter
        (fun r => decide (r.estimatedFee ≤ e.constraints.maxFee)) = [] := by
      apply List.filter_eq_nil_iff.mpr
      intro r hr
      have hrmem : r ∈ routes := List.mem_mergeSort.mp (hm ▸ hr)
      simp only [decide_eq_true_eq, not_le]
      exact hall r hrmem
    refine ⟨s0, ?_, hviol, ?_⟩
    · rw [selectOptimalRoute_eq_of routes e s0 rest hm, hfil]
    · intro cr ls bal cfg now h1 h2
      have hrule : rule4Fails cr := by
        unfold rule4Fails
        rw [h1, h2]
        exact hviol
      have hmemerr : feeMsg cr.selectedRoute.estimatedFee cr.envelope.constraints.maxFee
          ∈ (validate cr ls bal cfg now).errors := by
        simp [validate, List.mem_append, hrule]
      have hne2 : (validate cr ls bal cfg now).errors ≠ [] :=
        List.ne_nil_of_mem hmemerr
      have hval : (validate cr ls bal cfg now).isValid
          = (validate cr ls bal cfg now).errors.isEmpty := rfl
      rw [hval]
      cases herr : (validate cr ls bal cfg now).errors with
      | nil => exact absurd herr hne2
      | cons a l => rfl

/-- C2 witness: the amended theorem applied to the concrete candidate pair
and the zero-max-fee envelope. -/
theorem c2_fee_fallback_surfaced_downstream_witness :
    ∃ r, selectOptimalRoute [cexDirectRoute, cexIlpRoute] lowFeeCapEnvelope = Except.ok r
      ∧ lowFeeCapEnvelope.constraints.maxFee < r.estimatedFee
      ∧ ∀ (cr : ComputeResult) (ls : LedgerState) (bal : ℚ)
          (cfg : CARValidationConfig) (now : Int),
          cr.selectedRoute = r → cr.envelope = lowFeeCapEnvelope →
          (validate cr ls bal cfg now).isValid = false :=
  c2_fee_fallback_surfaced_downstream [cexDirectRoute, cexIlpRoute] lowFeeCapEnvelope
    (by simp)
    (by
      intro r hr
      rcases List.mem_pair.mp hr with h | h <;> subst h <;>
        norm_num [cexDirectRoute, cexIlpRoute, lowFeeCapEnvelope, multiplyFee_one_three])

/-! ## Restamping lemmas for compute determinism -/

/-- The candidate generator at one clock value is the restamping of the
generator at any other clock value. -/
theorem getCandidateRoutes_restamp (e : PaymentIntentEnvelope) (ls : LedgerState)
    (t1 t2 : Int) :
    getCandidateRoutes e ls t2 = (getCandidateRoutes e ls t1).map (restampRoute t2) := by
  unfold getCandidateRoutes
  split_ifs <;> simp [restampRoute, routeIdForType]

/-- Every candidate's identifier is the clock stamp of its type. -/
theorem getCandidateRoutes_routeId (e : PaymentIntentEnvelope) (ls : LedgerState) (t : Int) :
    ∀ r ∈ getCandidateRoutes e ls t, r.routeId = routeIdForType r.type t := by
  intro r hr
  unfold getCandidateRoutes at hr
  split_ifs at hr <;> simp at hr <;> rcases hr with rfl | rfl | rfl <;> rfl

/-- The allow-list filter commutes with restamping (the predicate only
reads the route type). -/
theorem filterByAllowedRoutes_map_restamp (l : List Route) (al : List String) (t : Int) :
    filterByAllowedRoutes (l.map (restampRoute t)) al
      = (filterByAllowedRoutes l al).map (restampRoute t) := by
  unfold filterByAllowedRoutes
  split_ifs with h
  · rfl
  · rw [List.filter_map]
    exact congrArg (List.map (restampRoute t)) (List.filter_congr fun x _ => rfl)

/-- Route selection commutes with restamping (the comparator and the fee
filter never read the identifier). -/
theorem selectOptimalRoute_map_restamp (l : List Route) (e : PaymentIntentEnvelope)
    (t : Int) :
    selectOptimalRoute (l.map (restampRoute t)) e
      = (selectOptimalRoute l e).map (restampRoute t) := by
  have hms : (l.map (restampRoute t)).mergeSort routeLE
      = (l.mergeSort routeLE).map (restampRoute t) :=
    (@List.map_mergeSort Route Route routeLE routeLE (restampRoute t) l
      (fun _ _ _ _ => rfl)).symm
  unfold selectOptimalRoute
  rw [hms]
  cases hsort : l.mergeSort routeLE with
  | nil => rfl
  | cons s0 rest =>
    have hf : (restampRoute t s0 :: rest.map (restampRoute t)).filter
        (fun r => decide (r.estimatedFee ≤ e.constraints.maxFee))
        = ((s0 :: rest).filter
            (fun r => decide (r.estimatedFee ≤ e.constraints.maxFee))).map
              (restampRoute t) := by
      rw [show restampRoute t s0 :: rest.map (restampRoute t)
          = (s0 :: rest).map (restampRoute t) from rfl, List.filter_map]
      exact congrArg (List.map (restampRoute t)) (List.filter_congr fun x _ => rfl)
    show (match (restampRoute t s0 :: rest.map (restampRoute t)).filter
        (fun r : Route => decide (r.estimatedFee ≤ e.constraints.maxFee)) with
      | [] => Except.ok (restampRoute t s0)
      | v0 :: _ => Except.ok v0)
      = (match (s0 :: rest).filter
          (fun r : Route => decide (r.estimatedFee ≤ e.constraints.maxFee)) with
        | [] => Except.ok s0
        | v0 :: _ => Except.ok v0).map (restampRoute t)
    rw [hf]
    cases (s0 :: rest).filter (fun r => decide (r.estimatedFee ≤ e.constraints.maxFee)) <;>
      rfl

/-- A successful selection picks a member of the candidate list. -/
theorem selectOptimalRoute_ok_mem (l : List Route) (e : PaymentIntentEnvelope) (r : Route)
    (h : selectOptimalRoute l e = Except.ok r) : r ∈ l := by
  cases hsort : l.mergeSort routeLE with
  | nil =>
    have hsel : selectOptimalRoute l e = Except.error "No valid routes available" := by
      unfold selectOptimalRoute
      rw [hsort]
    rw [hsel] at h
    simp at h
  | cons s0 rest =>
    rw [selectOptimalRoute_eq_of l e s0 rest hsort] at h
    have hs0 : s0 ∈ l := List.mem_mergeSort.mp (hsort ▸ List.mem_cons_self _ _)
    cases hfi : (s0 :: rest).filter
        (fun x => decide (x.estimatedFee ≤ e.constraints.maxFee)) with
    | nil =>
      rw [hfi] at h
      simp at h
      exact h ▸ hs0
    | cons v0 vs =>
      rw [hfi] at h
      simp at h
      have hv0 : v0 ∈ s0 :: rest := List.mem_of_mem_filter (hfi ▸ List.mem_cons_self _ _)
      exact h ▸ List.mem_mergeSort.mp (hsort ▸ hv0)

/-- The clock-stamped identifier determines the route type. -/
theorem routeIdForType_inj {a b : RouteType} {t : Int}
    (h : routeIdForType a t = routeIdForType b t) : a = b := by
  cases a <;> cases b <;>
    first
      | rfl
      | (exfalso
         unfold routeIdForType at h
         have h2 := congrArg String.data h
         rw [String.data_append, String.data_append] at h2
         have h3 := List.append_cancel_right h2
         exact absurd h3 (by decide))

/-- Identifier equality at one clock value is route-type equality. -/
theorem routeIdForType_eq_iff (x y : RouteType) (t : Int) :
    routeIdForType x t = routeIdForType y t ↔ x = y :=
  ⟨routeIdForType_inj, fun h => h ▸ rfl⟩

/-! ## C9 -/

/-- C9 counterexample: two envelopes with identical amount, destination and
constraint fields but different allow-lists, on the same ledger state and
clock, select different routes, so those fields alone do not determine the
selection. -/
theorem c9_determinism_cex :
    sampleEnvelope.amount = routesRestrictedEnvelope.amount
    ∧ sampleEnvelope.destination = routesRestrictedEnvelope.destination
    ∧ sampleEnvelope.constraints = routesRestrictedEnvelope.constraints
    ∧ (compute sampleEnvelope unitFeeLedger 0).map (fun cr => cr.selectedRoute.type)
        = Except.ok RouteType.direct
    ∧ (compute routesRestrictedEnvelope unitFeeLedger 0).map
        (fun cr => cr.selectedRoute.type) = Except.ok RouteType.ilp := by
  have hfilS : [cexDirectRoute, cexIlpRoute].filter
      (fun r => decide (r.estimatedFee ≤ sampleEnvelope.constraints.maxFee))
      = [cexDirectRoute] := by
    norm_num [List.filter, cexDirectRoute, cexIlpRoute, sampleEnvelope, multiplyFee_one_three]
  have hselS : selectOptimalRoute [cexDirectRoute, cexIlpRoute] sampleEnvelope
      = Except.ok cexDirectRoute := by
    rw [selectOptimalRoute_eq_of _ _ _ _ sort_pair_eval, hfilS]
  have hfilR : [cexIlpRoute].filter
      (fun r => decide (r.estimatedFee ≤ routesRestrictedEnvelope.constraints.maxFee))
      = [] := by
    norm_num [List.filter, cexIlpRoute, routesRestrictedEnvelope, sampleEnvelope,
      multiplyFee_one_three]
  have hselR : selectOptimalRoute [cexIlpRoute] routesRestrictedEnvelope
      = Except.ok cexIlpRoute := by
    rw [selectOptimalRoute_eq_of [cexIlpRoute] _ cexIlpRoute []
      (List.mergeSort_singleton _), hfilR]
  refine ⟨rfl, rfl, rfl, ?_, ?_⟩
  · simp only [compute]
    rw [candidates_eval.1,
      show filterByAllowedRoutes [cexDirectRoute, cexIlpRoute] sampleEnvelope.allowedRoutes
        = [cexDirectRoute, cexIlpRoute] from rfl, hselS]
    rfl
  · simp only [compute]
    rw [candidates_eval.2.2,
      show filterByAllowedRoutes [cexDirectRoute, cexIlpRoute]
          routesRestrictedEnvelope.allowedRoutes = [cexIlpRoute] from rfl, hselR]
    rfl

/-- C9 (amended): route computation is deterministic in the fields it
reads. Runs on envelopes agreeing on action, amount, destination,
constraints and allowed routes, over the same ledger state and the same
clock reading, produce the same selected route and the same alternative
ordering; and for a fixed envelope, runs at different clock readings differ
only by restamping the clock-derived computeId, timestamp and route
identifiers. -/
theorem c9_compute_determinism :
    (∀ (e1 e2 : PaymentIntentEnvelope) (ls : LedgerState) (t : Int),
      e1.action = e2.action → e1.amount = e2.amount → e1.destination = e2.destination →
      e1.constraints = e2.constraints → e1.allowedRoutes = e2.allowedRoutes →
      (compute e1 ls t).map (fun cr => (cr.selectedRoute, cr.alternativeRoutes))
        = (compute e2 ls t).map (fun cr => (cr.selectedRoute, cr.alternativeRoutes)))
    ∧ (∀ (e : PaymentIntentEnvelope) (ls : LedgerState) (t1 t2 : Int),
      compute e ls t2 = (compute e ls t1).map (restampComputeResult t2)) := by
  constructor
  · intro e1 e2 ls t hAct hAm hDest hCons hAllow
    have hc : getCandidateRoutes e1 ls t = getCandidateRoutes e2 ls t := by
      unfold getCandidateRoutes
      rw [hAct, hAm, hDest]
    have hs : ∀ l, selectOptimalRoute l e1 = selectOptimalRoute l e2 := by
      intro l
      unfold selectOptimalRoute
      rw [hCons]
    simp only [compute, hc, hAllow, hs]
    cases selectOptimalRoute
        (filterByAllowedRoutes (getCandidateRoutes e2 ls t) e2.allowedRoutes) e2 <;> rfl
  · intro e ls t1 t2
    simp only [compute]
    rw [getCandidateRoutes_restamp e ls t1 t2, filterByAllowedRoutes_map_restamp,
      selectOptimalRoute_map_restamp]
    cases hx : selectOptimalRoute
        (filterByAllowedRoutes (getCandidateRoutes e ls t1) e.allowedRoutes) e with
    | error s => rfl
    | ok r =>
      have hrmem : r ∈ filterByAllowedRoutes (getCandidateRoutes e ls t1) e.allowedRoutes :=
        selectOptimalRoute_ok_mem _ _ _ hx
      have hrmem2 : r ∈ getCandidateRoutes e ls t1 := by
        unfold filterByAllowedRoutes at hrmem
        split_ifs at hrmem
        · exact hrmem
        · exact List.mem_of_mem_filter hrmem
      have hrid := getCandidateRoutes_routeId e ls t1 r hrmem2
      simp only [Except.map, restampComputeResult]
      congr 1
      rw [List.filter_map]
      have halt :
          List.filter ((fun x : Route => decide (x.routeId ≠ (restampRoute t2 r).routeId))
              ∘ restampRoute t2)
            (filterByAllowedRoutes (getCandidateRoutes e ls t1) e.allowedRoutes)
          = List.filter (fun x : Route => decide (x.routeId ≠ r.routeId))
            (filterByAllowedRoutes (getCandidateRoutes e ls t1) e.allowedRoutes) := by
        apply List.filter_congr
        intro x hx2
        have hx3 : x ∈ getCandidateRoutes e ls t1 := by
          unfold filterByAllowedRoutes at hx2
          split_ifs at hx2
          · exact hx2
          · exact List.mem_of_mem_filter hx2
        have hxid := getCandidateRoutes_routeId e ls t1 x hx3
        simp only [Function.comp, restampRoute]
        congr 1
        rw [hxid, hrid]
        have hiff : (routeIdForType x.type t2 = routeIdForType r.type t2)
            ↔ (routeIdForType x.type t1 = routeIdForType r.type t1) :=
          (routeIdForType_eq_iff _ _ _).trans (routeIdForType_eq_iff _ _ _).symm
        exact propext (not_congr hiff)
      rw [halt]

/-- C9 witness: part one of the theorem applied to two envelopes differing
only in their intent id. -/
theorem c9_compute_determinism_witness :
    (compute sampleEnvelope unitFeeLedger 0).map
        (fun cr => (cr.selectedRoute, cr.alternativeRoutes))
      = (compute renamedEnvelope unitFeeLedger 0).map
        (fun cr => (cr.selectedRoute, cr.alternativeRoutes)) :=
  c9_compute_determinism.1 sampleEnvelope renamedEnvelope unitFeeLedger 0 rfl rfl rfl rfl rfl

/-! ## Equation lemmas for the cycle DFS -/

theorem visitDeps_nil (nodes : List RotationNode) (fuel : Nat) (V S : List String) :
    visitDeps nodes fuel [] V S = (false, V) := by
  unfold visitDeps
  rfl

theorem visitDeps_cons (nodes : List RotationNode) (fuel : Nat) (d : String)
    (ds : List String) (V S : List String) :
    visitDeps nodes fuel (d :: ds) V S =
      match visit nodes fuel d V S with
      | (true, V1) => (true, V1)
      | (false, V1) => visitDeps nodes fuel ds V1 S := by
  conv_lhs => rw [visitDeps]

theorem visit_zero (nodes : List RotationNode) (id : String) (V S : List String) :
    visit nodes 0 id V S = (true, V) := by
  unfold visit
  rfl

theorem visit_succ (nodes : List RotationNode) (fuel : Nat) (id : String)
    (V S : List String) :
    visit nodes (fuel + 1) id V S =
      if id ∈ S then (true, V)
      else if id ∈ V then (false, V)
      else visitDeps nodes fuel (succs nodes id) (id :: V) (id :: S) := by
  unfold visit
  rfl

/-! ## Completeness of the cycle DFS -/

/-- Under the closure half of the invariant, everything reachable from a
black vertex is black. -/
theorem black_reach {nodes : List RotationNode} {V S : List String}
    (hclosed : ∀ v, v ∈ V → v ∉ S → ∀ w ∈ succs nodes v, w ∈ V ∧ w ∉ S)
    {a b : String} (haV : a ∈ V) (haS : a ∉ S)
    (hab : Relation.ReflTransGen (depEdge nodes) a b) : b ∈ V ∧ b ∉ S := by
  induction hab with
  | refl => exact ⟨haV, haS⟩
  | tail _ h ih => exact hclosed _ ih.1 ih.2 _ h

/-- Specification of a cycle-free visit: the invariant is preserved, the
visited set only grows, and the visited vertex ends black. -/
theorem visit_spec (nodes : List RotationNode) :
    ∀ (fuel : Nat) (id : String) (V S V' : List String), dfsInv nodes V S →
      visit nodes fuel id V S = (false, V') →
      dfsInv nodes V' S ∧ (∀ x ∈ V, x ∈ V') ∧ id ∈ V' ∧ id ∉ S := by
  intro fuel
  induction fuel with
  | zero =>
    intro id V S V' hinv h
    rw [visit_zero] at h
    simp at h
  | succ fuel ih =>
    have hdeps : ∀ (ds : List String) (V S V' : List String), dfsInv nodes V S →
        visitDeps nodes fuel ds V S = (false, V') →
        dfsInv nodes V' S ∧ (∀ x ∈ V, x ∈ V') ∧ ∀ d ∈ ds, d ∈ V' ∧ d ∉ S := by
      intro ds
      induction ds with
      | nil =>
        intro V S V' hinv h
        rw [visitDeps_nil] at h
        simp at h
        subst h
        exact ⟨hinv, fun x hx => hx, by simp⟩
      | cons d ds ihd =>
        intro V S V' hinv h
        rw [visitDeps_cons] at h
        cases hv : visit nodes fuel d V S with
        | mk b V1 =>
          rw [hv] at h
          cases b with
          | true => simp at h
          | false =>
            change visitDeps nodes fuel ds V1 S = (false, V') at h
            obtain ⟨hinv1, hsub1, hd1, hdS1⟩ := ih d V S V1 hinv hv
            obtain ⟨hinv2, hsub2, hall2⟩ := ihd V1 S V' hinv1 h
            refine ⟨hinv2, fun x hx => hsub2 x (hsub1 x hx), ?_⟩
            intro x hx
            rcases List.mem_cons.mp hx with he | hm
            · exact he ▸ ⟨hsub2 d hd1, hdS1⟩
            · exact hall2 x hm
    intro id V S V' hinv h
    rw [visit_succ] at h
    by_cases h1 : id ∈ S
    · rw [if_pos h1] at h
      simp at h
    · rw [if_neg h1] at h
      by_cases h2 : id ∈ V
      · rw [if_pos h2] at h
        simp at h
        subst h
        exact ⟨hinv, fun x hx => hx, h2, h1⟩
      · rw [if_neg h2] at h
        have hinv2 : dfsInv nodes (id :: V) (id :: S) := by
          constructor
          · intro v hvV hvS w hw
            have hvne : v ≠ id := fun he => hvS (he ▸ List.mem_cons_self _ _)
            have hvV2 : v ∈ V := by
              rcases List.mem_cons.mp hvV with he | hm
              · exact absurd he hvne
              · exact hm
            have hvS2 : v ∉ S := fun hs => hvS (List.mem_cons_of_mem _ hs)
            obtain ⟨hwV, hwS⟩ := hinv.1 v hvV2 hvS2 w hw
            have hwne : w ≠ id := fun he => h2 (he ▸ hwV)
            refine ⟨List.mem_cons_of_mem _ hwV, ?_⟩
            intro hws
            rcases List.mem_cons.mp hws with he | hm
            · exact hwne he
            · exact hwS hm
          · intro v hvV hvS hcyc
            have hvne : v ≠ id := fun he => hvS (he ▸ List.mem_cons_self _ _)
            have hvV2 : v ∈ V := by
              rcases List.mem_cons.mp hvV with he | hm
              · exact absurd he hvne
              · exact hm
            have hvS2 : v ∉ S := fun hs => hvS (List.mem_cons_of_mem _ hs)
            exact hinv.2 v hvV2 hvS2 hcyc
        obtain ⟨hinv3, hsub3, hdeps3⟩ :=
          hdeps (succs nodes id) (id :: V) (id :: S) V' hinv2 h
        have hidV : id ∈ V' := hsub3 id (List.mem_cons_self _ _)
        refine ⟨⟨?_, ?_⟩, fun x hx => hsub3 x (List.mem_cons_of_mem _ hx), hidV, h1⟩
        · intro v hvV' hvS w hw
          by_cases hvid : v = id
          · subst hvid
            obtain ⟨hwV', hwS'⟩ := hdeps3 w hw
            exact ⟨hwV', fun hs => hwS' (List.mem_cons_of_mem _ hs)⟩
          · have hvS' : v ∉ id :: S := by
              intro hs
              rcases List.mem_cons.mp hs with he | hm
              · exact hvid he
              · exact hvS hm
            obtain ⟨hwV', hwS'⟩ := hinv3.1 v hvV' hvS' w hw
            exact ⟨hwV', fun hs => hwS' (List.mem_cons_of_mem _ hs)⟩
        · intro v hvV' hvS hcyc
          by_cases hvid : v = id
          · subst hvid
            obtain ⟨c, hc, hct⟩ := Relation.TransGen.head'_iff.mp hcyc
            obtain ⟨hcV', hcS'⟩ := hdeps3 c hc
            obtain ⟨_, hidS2⟩ := black_reach hinv3.1 hcV' hcS' hct
            exact hidS2 (List.mem_cons_self _ _)
          · have hvS' : v ∉ id :: S := by
              intro hs
              rcases List.mem_cons.mp hs with he | hm
              · exact hvid he
              · exact hvS hm
            exact hinv3.2 v hvV' hvS' hcyc

/-- Specification of a clean pass of the outer validation loop. -/
theorem validateLoop_none_spec (nodes : List RotationNode) (fuel : Nat) :
    ∀ (rest : List RotationNode) (V : List String), dfsInv nodes V [] →
      validateLoop nodes fuel rest V = none →
      ∃ V', dfsInv nodes V' [] ∧ (∀ x ∈ V, x ∈ V') ∧ ∀ n ∈ rest, n.id ∈ V' := by
  intro rest
  induction rest with
  | nil =>
    intro V hinv _
    exact ⟨V, hinv, fun x hx => hx, by simp⟩
  | cons n rest ih =>
    intro V hinv h
    unfold validateLoop at h
    cases hv : visit nodes fuel n.id V [] with
    | mk b V1 =>
      rw [hv] at h
      cases b with
      | true => simp at h
      | false =>
        change validateLoop nodes fuel rest V1 = none at h
        obtain ⟨hinv1, hsub1, hid1, _⟩ := visit_spec nodes fuel n.id V [] V1 hinv hv
        obtain ⟨V', hinv', hsub', hall'⟩ := ih V1 hinv1 h
        refine ⟨V', hinv', fun x hx => hsub' x (hsub1 x hx), ?_⟩
        intro m hm
        rcases List.mem_cons.mp hm with he | hmm
        · exact he ▸ hsub' _ hid1
        · exact hall' m hmm

/-- An id with an outgoing dependency edge is the id of a listed node. -/
theorem succs_mapped {nodes : List RotationNode} {u w : String} (h : w ∈ succs nodes u) :
    ∃ n, n ∈ nodes ∧ n.id = u := by
  unfold succs at h
  cases hf : nodeMapFind nodes u with
  | none => rw [hf] at h; simp at h
  | some n =>
    unfold nodeMapFind at hf
    refine ⟨n, ?_, ?_⟩
    · exact List.mem_reverse.mp (List.mem_of_find?_eq_some hf)
    · have hp := List.find?_some hf
      simpa using hp

/-- If the cycle validator reports no cycle, the dependency graph really is
acyclic. -/
theorem validateNoCycles_none_acyclic (nodes : List RotationNode)
    (h : validateNoCycles nodes = none) :
    ∀ u, ¬ Relation.TransGen (depEdge nodes) u u := by
  intro u hcyc
  obtain ⟨V', hinv', _, hall⟩ := validateLoop_none_spec nodes (fuelBound nodes) nodes []
    ⟨fun v hv => (List.not_mem_nil v hv).elim, fun v hv => (List.not_mem_nil v hv).elim⟩ h
  have hedge : ∃ w, depEdge nodes u w := by
    obtain ⟨c, hc, _⟩ := Relation.TransGen.head'_iff.mp hcyc
    exact ⟨c, hc⟩
  obtain ⟨w, hw⟩ := hedge
  obtain ⟨n, hn, hid⟩ := succs_mapped hw
  have huV : u ∈ V' := hid ▸ hall n hn
  exact hinv'.2 u huV (List.not_mem_nil u) hcyc

/-! ## C8 -/

/-- C8 counterexample: a node set forming the cycle A to B to C to A,
paired with an invalid constraint set, makes buildPlan fail with the
invalid-constraints error rather than a DependencyCycle error, because
constraint validation runs before cycle detection. -/
theorem c8_dependency_cycle_cex :
    buildPlan cycNodes badConstraints = Except.error BuildPlanError.invalidConstraints
    ∧ Relation.TransGen (depEdge cycNodes) "A" "A" := by
  constructor
  · rfl
  · have eAB : depEdge cycNodes "A" "B" := by decide
    have eBC : depEdge cycNodes "B" "C" := by decide
    have eCA : depEdge cycNodes "C" "A" := by decide
    exact Relation.TransGen.head eAB (Relation.TransGen.head eBC
      (Relation.TransGen.single eCA))

/-- C8 (amended): for every node set of structurally valid nodes whose
dependency graph (edges from a node's id, as keyed by the code's id map, to
its dependencies) contains a cycle, and every valid constraint set,
buildPlan fails with the DependencyCycle error: the depth-first traversal
with its on-stack marker set necessarily reports a cycle, and no plan —
partial or otherwise — is produced, since the adapter is only invoked after
cycle validation succeeds. -/
theorem c8_cycle_detection :
    ∀ (nodes : List RotationNode) (constraints : RotationConstraints),
      (∀ n ∈ nodes, isValidRotationNode n = true) →
      isValidConstraints constraints = true →
      (∃ u, Relation.TransGen (depEdge nodes) u u) →
      validateNoCycles nodes ≠ none
      ∧ buildPlan nodes constraints
          = Except.error (BuildPlanError.dependencyCycle
              ((validateNoCycles nodes).getD "")) := by
  intro nodes constraints hn hc hcyc
  obtain ⟨u, hu⟩ := hcyc
  have hnone : validateNoCycles nodes ≠ none := fun h =>
    validateNoCycles_none_acyclic nodes h u hu
  refine ⟨hnone, ?_⟩
  cases hv : validateNoCycles nodes with
  | none => exact absurd hv hnone
  | some id =>
    have hfind : nodes.find? (fun n => !isValidRotationNode n) = none := by
      apply List.find?_eq_none.mpr
      intro n hn2
      simp [hn n hn2]
    simp [buildPlan, hfind, hc, hv]

/-- C8 witness: the theorem applied to the concrete valid cyclic node set
and valid constraints. -/
theorem c8_cycle_detection_witness :
    validateNoCycles cycNodes ≠ none
    ∧ buildPlan cycNodes goodConstraints
        = Except.error (BuildPlanError.dependencyCycle
            ((validateNoCycles cycNodes).getD "")) := by
  apply c8_cycle_detection cycNodes goodConstraints (by decide) (by decide)
  refine ⟨"A", ?_⟩
  have eAB : depEdge cycNodes "A" "B" := by decide
  have eBC : depEdge cycNodes "B" "C" := by decide
  have eCA : depEdge cycNodes "C" "A" := by decide
  exact Relation.TransGen.head eAB (Relation.TransGen.head eBC
    (Relation.TransGen.single eCA))

end CVP
